import Mathlib

/-! # Tickfy validator setup: wallet vault and envelope crypto

A shallow embedding of `internal/node/service.go`.

Conventions of the embedding
* A Go `string` / `[]byte` is a list of bytes (`GoString`).
* A Go `error` result is `Option Error` (`none` is `nil`); a result tuple whose
  last component is an `error` and whose other components are zero values on
  every error path is an `Except Error _`.
* Library code (crypto/sha256, crypto/aes, crypto/cipher, cosmos-sdk, go-bip39)
  is not part of the repository: it is a parameter (`Primitives`). What a proof
  needs from it is stated as an explicit hypothesis (`GCMSpec`, `Bip39Spec`).
* Everything the operating system decides (random bytes, the clock, whether a
  write, a removal or a launch succeeds, what an RPC answers) is an explicit
  input (`LoadEnv`, `OpEnv`, `WalletEnv`, `StartEnv`, `StatusEnv`).
* Goroutines are steps of a transition system (`World`, `Action`, `step`), each
  step atomic under the mutex it takes.
* A `float64` is its exact value; arithmetic and `%.Nf` round to nearest, ties
  to even (`Float64`, `roundFloat64`, `formatFixed`).
* A file is modelled by what `os.ReadFile` followed by `json.Unmarshal` makes of
  it (`File`); writing a value and reading it back yields that value. This is
  so for `encoding/json` when the strings of the value are valid UTF-8, as are
  the strings read from a file, hex text and bech32 text; another byte is
  written as U+FFFD (`jsonString`), so a statement about a string that a caller
  passes in and that is written to a file assumes it valid (`utf8ValidString`).
-/

namespace Tickfy

/-! ## Bytes, strings, errors -/

abbrev Byte := Fin 256

abbrev GoString := List Byte

/-- The `error` values the modelled functions can return. -/
inductive Error where
  /-- Go `hex.InvalidByteError(b)` -/
  | hexInvalidByte (b : Byte)
  /-- Go `hex.ErrLength` -/
  | hexErrLength
  /-- Go `aes.KeySizeError(n)` -/
  | aesKeySize (n : Nat)
  /-- Go `errors.New("ciphertext muito curto")` -/
  | ciphertextMuitoCurto
  /-- Go `errors.New("senha incorreta")` -/
  | senhaIncorreta
  /-- Go `errors.New("mnemônico inválido")` -/
  | mnemonicoInvalido
  /-- Go `errors.New("esta carteira já foi importada")` -/
  | carteiraJaImportada
  /-- Go `errors.New("carteira não encontrada")` -/
  | carteiraNaoEncontrada
  /-- Go `errors.New("nenhuma carteira encontrada")` -/
  | nenhumaCarteiraEncontrada
  /-- Go `errors.New("pare o node antes de remover a carteira")` -/
  | pareONode
  /-- the error of a failed `os.WriteFile` -/
  | writeFile
  /-- Go `errors.New("node já está rodando")` -/
  | nodeJaRodando
  /-- Go `errors.New("node não está rodando")` -/
  | nodeNaoRodando
  /-- the error of a failed `cmd.Start()` -/
  | execStart
  /-- the error of a failed `json.Unmarshal` -/
  | jsonUnmarshal
  deriving DecidableEq, Repr

deriving instance DecidableEq for Except

/-- The text `err.Error()` shows to the caller. -/
def Error.message : Error → String
  | .hexInvalidByte _ => "encoding/hex: invalid byte"
  | .hexErrLength => "encoding/hex: odd length hex string"
  | .aesKeySize _ => "crypto/aes: invalid key size"
  | .ciphertextMuitoCurto => "ciphertext muito curto"
  | .senhaIncorreta => "senha incorreta"
  | .mnemonicoInvalido => "mnemônico inválido"
  | .carteiraJaImportada => "esta carteira já foi importada"
  | .carteiraNaoEncontrada => "carteira não encontrada"
  | .nenhumaCarteiraEncontrada => "nenhuma carteira encontrada"
  | .pareONode => "pare o node antes de remover a carteira"
  | .writeFile => "open wallets.json: write failed"
  | .nodeJaRodando => "node já está rodando"
  | .nodeNaoRodando => "node não está rodando"
  | .execStart => "fork/exec: start failed"
  | .jsonUnmarshal => "invalid character looking for beginning of value"

/-! ## encoding/hex -/

/-- The table `hextable = "0123456789abcdef"`. -/
def hextable : List Byte :=
  [48, 49, 50, 51, 52, 53, 54, 55, 56, 57, 97, 98, 99, 100, 101, 102]

/-- Go `hex.EncodeToString`: for each byte `v`, `hextable[v>>4]` then `hextable[v&0x0f]`. -/
def hexEncodeToString : List Byte → GoString
  | [] => []
  | v :: rest =>
    hextable.getD (v.val >>> 4) 0 :: hextable.getD (v.val &&& 0x0f) 0 :: hexEncodeToString rest

/-- The table `reverseHexTable`: the value of a hex digit, `0xff` for any other byte. -/
def reverseHexTable (c : Byte) : Nat :=
  if 48 ≤ c.val ∧ c.val ≤ 57 then c.val - 48
  else if 97 ≤ c.val ∧ c.val ≤ 102 then c.val - 87
  else if 65 ≤ c.val ∧ c.val ≤ 70 then c.val - 55
  else 0xff

/-- Go `hex.DecodeString`: two digits per byte; an invalid digit is reported before
an odd length. The bytes decoded before an error are dropped by every caller. -/
def hexDecodeString : GoString → Except Error (List Byte)
  | [] => .ok []
  | [p] =>
    if reverseHexTable p > 0x0f then .error (.hexInvalidByte p) else .error .hexErrLength
  | p :: q :: rest =>
    if reverseHexTable p > 0x0f then .error (.hexInvalidByte p)
    else if reverseHexTable q > 0x0f then .error (.hexInvalidByte q)
    else
      match hexDecodeString rest with
      | .error e => .error e
      | .ok bs => .ok (Fin.ofNat ((reverseHexTable p <<< 4) ||| reverseHexTable q) :: bs)

/-! ## Library primitives -/

/-- A `[32]byte` array, the result type of `sha256.Sum256`. -/
abbrev Key32 := { k : List Byte // k.length = 32 }

/-- The library functions the service calls. -/
structure Primitives where
  /-- Go `sha256.Sum256` -/
  sum256 : List Byte → Key32
  /-- AES-GCM `Seal(nil, nonce, plaintext, nil)` under a key: ciphertext and tag -/
  gcmSeal : List Byte → List Byte → List Byte → List Byte
  /-- AES-GCM tag check and decryption of an input at least one tag long -/
  gcmOpen : List Byte → List Byte → List Byte → Option (List Byte)
  /-- Go `bip39.NewMnemonic` -/
  newMnemonic : List Byte → GoString
  /-- Go `bip39.IsMnemonicValid` -/
  isMnemonicValid : GoString → Bool
  /-- Go `bip39.NewSeed(mnemonic, passphrase)` -/
  newSeed : GoString → GoString → List Byte
  /-- Go `hd.ComputeMastersFromSeed` -/
  computeMastersFromSeed : List Byte → List Byte × List Byte
  /-- Go `hd.DerivePrivateKeyForPath(master, ch, path)`, its error dropped -/
  derivePrivateKeyForPath : List Byte → List Byte → GoString → List Byte
  /-- Go `(&secp256k1.PrivKey{Key: k}).PubKey().Address()` -/
  pubKeyAddress : List Byte → List Byte
  /-- Go `sdk.AccAddress(a).String()` under a configured account prefix -/
  bech32 : GoString → List Byte → GoString

/-- Go `gcm.NonceSize()` of the standard GCM: 12 bytes (96 bits). -/
def gcmNonceSize : Nat := 12

/-- The tag size of the standard GCM: 16 bytes. -/
def gcmTagSize : Nat := 16

/-- Go `aes.NewCipher`: accepts keys of 16, 24 or 32 bytes. -/
def aesNewCipher (key : List Byte) : Except Error (List Byte) :=
  if key.length = 16 ∨ key.length = 24 ∨ key.length = 32 then .ok key
  else .error (.aesKeySize key.length)

/-- Go `cipher.NewGCM`: fails only for a block size other than 16, which an AES
block never has. The result is the keyed AEAD. -/
def cipherNewGCM (block : List Byte) : Except Error (List Byte) := .ok block

/-- Go `gcm.Seal(dst, nonce, plaintext, nil)`: appends ciphertext and tag to `dst`. -/
def gcmSealTo (P : Primitives) (gcm dst nonce plaintext : List Byte) : List Byte :=
  dst ++ P.gcmSeal gcm nonce plaintext

/-- Go `gcm.Open(nil, nonce, ciphertext, nil)`: an input shorter than the tag is
rejected before any tag is computed. -/
def gcmOpenFrom (P : Primitives) (gcm nonce ciphertext : List Byte) : Option (List Byte) :=
  if ciphertext.length < gcmTagSize then none else P.gcmOpen gcm nonce ciphertext

/-- What the proofs assume of AES-GCM: the sealed text is one tag longer than
the plaintext, and opening what was sealed under the same key and nonce gives
the plaintext back. -/
structure GCMSpec (P : Primitives) : Prop where
  seal_length : ∀ key nonce pt, (P.gcmSeal key nonce pt).length = pt.length + gcmTagSize
  open_seal : ∀ key nonce pt, key.length = 32 → nonce.length = gcmNonceSize →
    P.gcmOpen key nonce (P.gcmSeal key nonce pt) = some pt

/-! ## Envelope crypto (`encryptData`, `decryptData`) -/

/-- Go `encryptData`; `nonce` is the content of the nonce buffer after `rand.Read`. -/
def encryptData (P : Primitives) (nonce : List Byte) (plaintext password salt : GoString) :
    Except Error GoString :=
  let key := P.sum256 (password ++ salt)
  match aesNewCipher key.val with
  | .error e => .error e
  | .ok block =>
    match cipherNewGCM block with
    | .error e => .error e
    | .ok gcm =>
      let ciphertext := gcmSealTo P gcm nonce nonce plaintext
      .ok (hexEncodeToString ciphertext)

/-- Go `decryptData`. -/
def decryptData (P : Primitives) (cipherHex password salt : GoString) : Except Error GoString :=
  match hexDecodeString cipherHex with
  | .error e => .error e
  | .ok ciphertext =>
    let key := P.sum256 (password ++ salt)
    match aesNewCipher key.val with
    | .error e => .error e
    | .ok block =>
      match cipherNewGCM block with
      | .error e => .error e
      | .ok gcm =>
        let nonceSize := gcmNonceSize
        if ciphertext.length < nonceSize then .error .ciphertextMuitoCurto
        else
          let nonce := ciphertext.take nonceSize
          let ciphertext := ciphertext.drop nonceSize
          match gcmOpenFrom P gcm nonce ciphertext with
          | none => .error .senhaIncorreta
          | some plaintext => .ok plaintext

/-! ## Key derivation -/

/-- The account prefix `"tickfy"` set by `SetBech32PrefixForAccount`. -/
def accountHrp : GoString := [116, 105, 99, 107, 102, 121]

/-- The derivation path: purpose 44, coin type 118, account 0 (all hardened),
external chain 0, index 0, as the bytes of the path string. -/
def derivationPath : GoString :=
  [109, 47, 52, 52, 39, 47, 49, 49, 56, 39, 47, 48, 39, 47, 48, 47, 48]

/-- Go `deriveAddress`. -/
def deriveAddress (P : Primitives) (mnemonic : GoString) : GoString :=
  let seed := P.newSeed mnemonic []
  let masters := P.computeMastersFromSeed seed
  let derivedKey := P.derivePrivateKeyForPath masters.1 masters.2 derivationPath
  let address := P.pubKeyAddress derivedKey
  P.bech32 accountHrp address

/-- What the proofs assume of go-bip39: the mnemonic made from 256 bits of
entropy passes the validity check. -/
structure Bip39Spec (P : Primitives) : Prop where
  newMnemonic_valid : ∀ entropy : List Byte, entropy.length = 32 →
    P.isMnemonicValid (P.newMnemonic entropy) = true

/-! ## Data model -/

structure WalletData where
  ID : GoString
  Address : GoString
  Name : GoString
  EncryptedMnemonic : GoString
  Salt : GoString
  CreatedAt : Int
  deriving DecidableEq, Repr

structure WalletsStore where
  Wallets : List WalletData
  ActiveWalletID : GoString
  deriving DecidableEq, Repr

/-- Go `os.Process`. -/
structure Process where
  Pid : Int
  deriving DecidableEq, Repr

/-- Go `exec.Cmd`: `Process` is nil until `Start` has succeeded. -/
structure Cmd where
  Path : GoString
  Args : List GoString
  Env : List GoString
  Process : Option Process
  deriving DecidableEq, Repr

/-- Go `Service` (the two mutexes are not state). -/
structure Service where
  dataDir : GoString
  nodeCmd : Option Cmd
  logs : List GoString
  maxLogs : Int
  deriving DecidableEq, Repr

/-- What reading and parsing a file gives: `os.ReadFile` fails (`missing`),
`json.Unmarshal` fails (`garbage`), or the parsed value. -/
inductive File (α : Type) where
  | missing
  | garbage
  | json (v : α)
  deriving DecidableEq, Repr

structure NodeConfig where
  Moniker : GoString
  ChainID : GoString
  NodeHome : GoString
  deriving DecidableEq, Repr

/-- The files of the data directory the service reads or writes. -/
structure Disk where
  /-- File `wallets.json` -/
  walletsJson : File WalletsStore
  /-- File `wallet.json`, the legacy single-wallet file -/
  walletJson : File WalletData
  /-- File `node-config.json` -/
  nodeConfigJson : File NodeConfig := .missing
  /-- whether `os.Stat` finds the node binary under `bin` -/
  binary : Bool := false
  /-- whether `os.Stat` finds `validator.json` -/
  validatorJson : Bool := false
  /-- whether `os.Stat` finds the cosmovisor binary under `bin` -/
  cosmovisorBinary : Bool := false
  /-- whether `os.Stat` of `cosmovisor-config.json` reports anything but "does not exist" -/
  cosmovisorConfigJson : Bool := false
  deriving DecidableEq, Repr

/-- What an `os.WriteFile` of `wallets.json` can do: succeed; fail before the
file is touched (the open fails); or fail after the file was cut (the write
fails), which leaves a file that does not parse. -/
inductive WriteOutcome where
  | ok
  | failedUntouched
  | failedTruncated
  deriving DecidableEq, Repr

/-- What `loadWalletsStore` gets from the operating system. -/
structure LoadEnv where
  /-- the bytes `rand.Read` gives `generateWalletID` -/
  idBytes : List Byte
  /-- what the `os.WriteFile` of `saveWalletsStore` does -/
  write : WriteOutcome
  /-- whether `os.Remove` succeeds -/
  removeOk : Bool
  deriving DecidableEq, Repr

/-- What a store operation gets from the operating system. -/
structure OpEnv where
  load : LoadEnv
  /-- what the `os.WriteFile` of the final `saveWalletsStore` does -/
  write : WriteOutcome
  deriving DecidableEq, Repr

/-- What `CreateWallet` and `ImportWallet` get from the operating system. -/
structure WalletEnv where
  /-- Go `bip39.NewEntropy(256)` (`CreateWallet` only) -/
  entropy : List Byte
  /-- the bytes `rand.Read` gives `generateSalt` -/
  saltBytes : List Byte
  /-- the bytes `rand.Read` gives `encryptData` -/
  nonce : List Byte
  /-- the bytes `rand.Read` gives `generateWalletID` -/
  idBytes : List Byte
  /-- Go `time.Now().Unix()` -/
  now : Int
  load : LoadEnv
  /-- what the `os.WriteFile` of the final `saveWalletsStore` does -/
  write : WriteOutcome
  deriving DecidableEq, Repr

/-! ## Status -/

/-- Go `isNodeRunning`. -/
def isNodeRunning (s : Service) : Bool :=
  match s.nodeCmd with
  | none => false
  | some cmd => cmd.Process.isSome

/-! ## Wallet store -/

/-- Go `saveWalletsStore`: the error of `os.WriteFile` and the files afterwards.
A file is modelled by the value `json.Unmarshal` reads back from it. For a store
whose strings are valid UTF-8 that value is the store handed in, which is what
the model writes; `json.MarshalIndent` writes a byte of a string that is not
part of a valid encoding as U+FFFD (`jsonString`), a replacement the model
leaves out: the statement about the name a caller passes assumes it valid. -/
def saveWalletsStore (write : WriteOutcome) (store : WalletsStore) (d : Disk) :
    Option Error × Disk :=
  match write with
  | .ok => (none, { d with walletsJson := .json store })
  | .failedUntouched => (some .writeFile, d)
  | .failedTruncated => (some .writeFile, { d with walletsJson := .garbage })

/-- Go `os.Remove` of `wallet.json`. -/
def removeWalletJson (removeOk : Bool) (d : Disk) : Disk :=
  if removeOk then { d with walletJson := .missing } else d

/-- Go `generateWalletID`: 8 random bytes in hex. -/
def generateWalletID (rnd : List Byte) : GoString := hexEncodeToString rnd

/-- Go `generateSalt`: 16 random bytes in hex. -/
def generateSalt (rnd : List Byte) : GoString := hexEncodeToString rnd

/-- Go `loadWalletsStore`: the store, the error (always nil) and the files afterwards. -/
def loadWalletsStore (e : LoadEnv) (d : Disk) : WalletsStore × Option Error × Disk :=
  match d.walletsJson with
  | .missing =>
    match d.walletJson with
    | .json oldWallet =>
      if oldWallet.Address ≠ [] then
        let oldWallet := { oldWallet with ID := generateWalletID e.idBytes }
        let store : WalletsStore := { Wallets := [oldWallet], ActiveWalletID := oldWallet.ID }
        let d1 := (saveWalletsStore e.write store d).2
        let d2 := removeWalletJson e.removeOk d1
        (store, none, d2)
      else ({ Wallets := [], ActiveWalletID := [] }, none, d)
    | _ => ({ Wallets := [], ActiveWalletID := [] }, none, d)
  | .garbage => ({ Wallets := [], ActiveWalletID := [] }, none, d)
  | .json store => (store, none, d)

/-- Go `CreateWallet`: `(walletID, address, mnemonic)` or the error, and the files afterwards. -/
def CreateWallet (P : Primitives) (e : WalletEnv) (d : Disk) (name password : GoString) :
    Except Error (GoString × GoString × GoString) × Disk :=
  let mnemonic := P.newMnemonic e.entropy
  let address := deriveAddress P mnemonic
  let salt := generateSalt e.saltBytes
  match encryptData P e.nonce mnemonic password salt with
  | .error err => (.error err, d)
  | .ok encrypted =>
    let walletID := generateWalletID e.idBytes
    let walletData : WalletData :=
      { ID := walletID, Address := address, Name := name, EncryptedMnemonic := encrypted,
        Salt := salt, CreatedAt := e.now }
    let loaded := loadWalletsStore e.load d
    let store : WalletsStore :=
      { Wallets := loaded.1.Wallets ++ [walletData], ActiveWalletID := walletID }
    let saved := saveWalletsStore e.write store loaded.2.2
    match saved.1 with
    | some err => (.error err, saved.2)
    | none => (.ok (walletID, address, mnemonic), saved.2)

/-- Go `ImportWallet`: `(walletID, address)` or the error, and the files afterwards. -/
def ImportWallet (P : Primitives) (e : WalletEnv) (d : Disk) (name mnemonic password : GoString) :
    Except Error (GoString × GoString) × Disk :=
  if ¬ P.isMnemonicValid mnemonic then (.error .mnemonicoInvalido, d)
  else
    let address := deriveAddress P mnemonic
    let salt := generateSalt e.saltBytes
    match encryptData P e.nonce mnemonic password salt with
    | .error err => (.error err, d)
    | .ok encrypted =>
      let walletID := generateWalletID e.idBytes
      let walletData : WalletData :=
        { ID := walletID, Address := address, Name := name, EncryptedMnemonic := encrypted,
          Salt := salt, CreatedAt := e.now }
      let loaded := loadWalletsStore e.load d
      if loaded.1.Wallets.any (fun w => w.Address = address) then
        (.error .carteiraJaImportada, loaded.2.2)
      else
        let store : WalletsStore :=
          { Wallets := loaded.1.Wallets ++ [walletData], ActiveWalletID := walletID }
        let saved := saveWalletsStore e.write store loaded.2.2
        match saved.1 with
        | some err => (.error err, saved.2)
        | none => (.ok (walletID, address), saved.2)

/-- A value of a `map[string]interface{}`. -/
inductive Value where
  | str (s : GoString)
  | int (n : Int)
  deriving DecidableEq, Repr

/-- The map `GetWallets` builds for one record. -/
def walletEntry (w : WalletData) : List (String × Value) :=
  [("id", .str w.ID), ("name", .str w.Name), ("address", .str w.Address),
   ("createdAt", .int w.CreatedAt)]

/-- Go `GetWallets`: the entries and the active id, or the error, and the files afterwards. -/
def GetWallets (e : LoadEnv) (d : Disk) :
    Except Error (List (List (String × Value)) × GoString) × Disk :=
  let loaded := loadWalletsStore e d
  match loaded.2.1 with
  | some err => (.error err, loaded.2.2)
  | none => (.ok (loaded.1.Wallets.map walletEntry, loaded.1.ActiveWalletID), loaded.2.2)

/-- Go `SetActiveWallet`. -/
def SetActiveWallet (e : OpEnv) (d : Disk) (walletID : GoString) : Option Error × Disk :=
  let loaded := loadWalletsStore e.load d
  match loaded.2.1 with
  | some err => (some err, loaded.2.2)
  | none =>
    let found := loaded.1.Wallets.any (fun w => w.ID = walletID)
    if ¬ found then (some .carteiraNaoEncontrada, loaded.2.2)
    else
      let store := { loaded.1 with ActiveWalletID := walletID }
      saveWalletsStore e.write store loaded.2.2

/-- Go `GetWalletInfo`: `(address, name)` or the error, and the files afterwards. -/
def GetWalletInfo (e : LoadEnv) (d : Disk) : Except Error (GoString × GoString) × Disk :=
  let loaded := loadWalletsStore e d
  let store := loaded.1
  if loaded.2.1 ≠ none ∨ store.Wallets.length = 0 then
    (.error .nenhumaCarteiraEncontrada, loaded.2.2)
  else
    match store.Wallets.find? (fun w => w.ID = store.ActiveWalletID) with
    | some w => (.ok (w.Address, w.Name), loaded.2.2)
    | none =>
      match store.Wallets with
      | w0 :: _ => (.ok (w0.Address, w0.Name), loaded.2.2)
      | [] => (.error .carteiraNaoEncontrada, loaded.2.2)

/-- The loop of `DeleteWallet`: the records kept so far and whether the id was seen. -/
def deleteLoop (walletID : GoString) :
    List WalletData → List WalletData × Bool → List WalletData × Bool
  | [], acc => acc
  | w :: ws, acc =>
    if w.ID = walletID then deleteLoop walletID ws (acc.1, true)
    else deleteLoop walletID ws (acc.1 ++ [w], acc.2)

/-- Go `DeleteWallet`. -/
def DeleteWallet (s : Service) (e : OpEnv) (d : Disk) (walletID : GoString) :
    Option Error × Disk :=
  if isNodeRunning s then (some .pareONode, d)
  else
    let loaded := loadWalletsStore e.load d
    match loaded.2.1 with
    | some err => (some err, loaded.2.2)
    | none =>
      let store := loaded.1
      let looped := deleteLoop walletID store.Wallets ([], false)
      let newWallets := looped.1
      let found := looped.2
      if ¬ found then (some .carteiraNaoEncontrada, loaded.2.2)
      else
        let store := { store with Wallets := newWallets }
        let store :=
          if store.ActiveWalletID = walletID then
            match newWallets with
            | w0 :: _ => { store with ActiveWalletID := w0.ID }
            | [] => { store with ActiveWalletID := [] }
          else store
        saveWalletsStore e.write store loaded.2.2

/-- Whether `loadWalletsStore` will migrate: the store file cannot be read and
the legacy file parses to a record with an address. -/
def legacyPending (d : Disk) : Bool :=
  match d.walletsJson, d.walletJson with
  | .missing, .json oldWallet => decide (oldWallet.Address ≠ [])
  | _, _ => false

/-- The active-wallet invariant: a non-empty store has an active id that names
one of its records. -/
def ActiveInv (st : WalletsStore) : Prop :=
  st.Wallets ≠ [] → ∃ w ∈ st.Wallets, w.ID = st.ActiveWalletID

instance (st : WalletsStore) : Decidable (ActiveInv st) := by
  unfold ActiveInv; infer_instance

/-! ## A small instance of the primitives, for evaluating the definitions -/

/-- Pads or cuts to 32 bytes. -/
def toySum256 (m : List Byte) : Key32 :=
  ⟨(m ++ List.replicate 32 0).take 32, by simp⟩

/-- The first 16 bytes of the key (padded) stand for the tag. -/
def toyTag (key : List Byte) : List Byte := (key ++ List.replicate 16 0).take 16

def toySeal (key _nonce pt : List Byte) : List Byte := pt ++ toyTag key

def toyOpen (key _nonce ct : List Byte) : Option (List Byte) :=
  if ct.drop (ct.length - 16) = toyTag key then some (ct.take (ct.length - 16)) else none

/-- An instance of the primitives with a deterministic, invertible "cipher". -/
def toy : Primitives where
  sum256 := toySum256
  gcmSeal := toySeal
  gcmOpen := toyOpen
  newMnemonic := fun entropy => entropy
  isMnemonicValid := fun m => m.length == 32
  newSeed := fun m _ => m
  computeMastersFromSeed := fun s => (s, s)
  derivePrivateKeyForPath := fun master _ _ => master
  pubKeyAddress := fun k => k.take 20
  bech32 := fun pre a => pre ++ [49] ++ a

/-! ## Concrete data for evaluating the definitions -/

/-- The bytes of "alice" -/
def alice : GoString := [97, 108, 105, 99, 101]

/-- The bytes of "bob" -/
def bob : GoString := [98, 111, 98]

/-- The bytes of "carol" -/
def carol : GoString := [99, 97, 114, 111, 108]

/-- The bytes of "secret1" -/
def secret1 : GoString := [115, 101, 99, 114, 101, 116, 49]

/-- The bytes of "secret2" -/
def secret2 : GoString := [115, 101, 99, 114, 101, 116, 50]

def demoEntropy : List Byte := List.replicate 32 7

def demoLoadEnv : LoadEnv := { idBytes := [1, 2], write := .ok, removeOk := true }

def demoEnv : WalletEnv :=
  { entropy := demoEntropy, saltBytes := [3, 4], nonce := List.replicate 12 9,
    idBytes := [10, 11], now := 1700000000, load := demoLoadEnv, write := .ok }

def demoEnv2 : WalletEnv :=
  { entropy := List.replicate 32 8, saltBytes := [5, 6], nonce := List.replicate 12 1,
    idBytes := [12, 13], now := 1700000100, load := demoLoadEnv, write := .ok }

def demoOpEnv : OpEnv := { load := demoLoadEnv, write := .ok }

/-- No store file and no legacy file. -/
def emptyDisk : Disk := { walletsJson := .missing, walletJson := .missing }

def carolWallet : WalletData :=
  { ID := [99, 49], Address := [116, 49, 99], Name := carol, EncryptedMnemonic := [48, 48],
    Salt := [48, 49], CreatedAt := 1600000000 }

def daveWallet : WalletData :=
  { ID := [100, 50], Address := [116, 49, 100], Name := [100, 97, 118, 101],
    EncryptedMnemonic := [48, 50], Salt := [48, 51], CreatedAt := 1600000500 }

/-- A store file with one record, which is active. -/
def oneWalletDisk : Disk :=
  { walletsJson := .json { Wallets := [carolWallet], ActiveWalletID := [99, 49] },
    walletJson := .missing }

/-- A store file with two records, the first one active. -/
def twoWalletDisk : Disk :=
  { walletsJson := .json { Wallets := [carolWallet, daveWallet], ActiveWalletID := [99, 49] },
    walletJson := .missing }

/-- A store file with two records and an active id that names neither. -/
def staleActiveDisk : Disk :=
  { walletsJson := .json { Wallets := [carolWallet, daveWallet], ActiveWalletID := [120] },
    walletJson := .missing }

/-- A service with no process handle. -/
def stoppedService : Service := { dataDir := [100], nodeCmd := none, logs := [], maxLogs := 1000 }

/-- A service whose handle holds a started process. -/
def runningService : Service :=
  { dataDir := [100]
    nodeCmd := some { Path := [98], Args := [], Env := [], Process := some { Pid := 4242 } }
    logs := [], maxLogs := 1000 }

/-- The hex text of twelve zero bytes: a nonce followed by nothing. -/
def zeroNonceHex : GoString := List.replicate 24 48

/-- The record `CreateWallet` and `ImportWallet` build. -/
def newWalletData (P : Primitives) (e : WalletEnv) (name mnemonic password : GoString) :
    WalletData :=
  { ID := generateWalletID e.idBytes
    Address := deriveAddress P mnemonic
    Name := name
    EncryptedMnemonic := hexEncodeToString (e.nonce ++
      P.gcmSeal (P.sum256 (password ++ generateSalt e.saltBytes)).val e.nonce mnemonic)
    Salt := generateSalt e.saltBytes
    CreatedAt := e.now }

/-- The store `CreateWallet` and `ImportWallet` hand to `saveWalletsStore`. -/
def storeWithNew (P : Primitives) (e : WalletEnv) (d : Disk) (name mnemonic password : GoString) :
    WalletsStore :=
  { Wallets := (loadWalletsStore e.load d).1.Wallets ++ [newWalletData P e name mnemonic password]
    ActiveWalletID := generateWalletID e.idBytes }

/-- The store `DeleteWallet` hands to `saveWalletsStore` when the id is present:
the records with another id, and the active id re-pointed if it was deleted. -/
def storeAfterDelete (st : WalletsStore) (walletID : GoString) : WalletsStore :=
  { Wallets := st.Wallets.filter (fun w => decide (w.ID ≠ walletID))
    ActiveWalletID :=
      if st.ActiveWalletID = walletID then
        match st.Wallets.filter (fun w => decide (w.ID ≠ walletID)) with
        | w0 :: _ => w0.ID
        | [] => []
      else st.ActiveWalletID }

/-! ## Paths -/

/-- Go `filepath.Join` of clean, non-empty elements: the elements with "/" between them. -/
def filepathJoin : List GoString → GoString
  | [] => []
  | [a] => a
  | a :: b :: rest => a ++ [47] ++ filepathJoin (b :: rest)

/-- The bytes of "bin". -/
def strBin : GoString := [98, 105, 110]

/-- The bytes of "node". -/
def strNode : GoString := [110, 111, 100, 101]

/-- The bytes of ".exe". -/
def strExe : GoString := [46, 101, 120, 101]

/-- The bytes of "tickfy-blockchaind". -/
def strDaemon : GoString :=
  [116, 105, 99, 107, 102, 121, 45, 98, 108, 111, 99, 107, 99, 104, 97, 105, 110, 100]

/-- The bytes of "cosmovisor". -/
def strCosmovisor : GoString := [99, 111, 115, 109, 111, 118, 105, 115, 111, 114]

/-- The bytes of "start". -/
def strStart : GoString := [115, 116, 97, 114, 116]

/-- The bytes of "run". -/
def strRun : GoString := [114, 117, 110]

/-- The bytes of "--home". -/
def strHome : GoString := [45, 45, 104, 111, 109, 101]

/-- Go `getBinaryPath`; `windows` is `runtime.GOOS == "windows"`. -/
def getBinaryPath (windows : Bool) (s : Service) : GoString :=
  let name := strDaemon
  let name := if windows then name ++ strExe else name
  filepathJoin [s.dataDir, strBin, name]

/-- Go `getCosmovisorPath`. -/
def getCosmovisorPath (windows : Bool) (s : Service) : GoString :=
  let name := strCosmovisor
  let name := if windows then name ++ strExe else name
  filepathJoin [s.dataDir, strBin, name]

/-- Go `getNodeHome`. -/
def getNodeHome (s : Service) : GoString := filepathJoin [s.dataDir, strNode]

/-- Go `IsCosmovisorEnabled`. -/
def IsCosmovisorEnabled (d : Disk) : Bool := d.cosmovisorConfigJson

/-! ## Log buffer -/

/-- Go `NewService`. -/
def NewService (dataDir : GoString) : Service :=
  { dataDir := dataDir, nodeCmd := none, logs := [], maxLogs := 1000 }

/-- The entry `fmt.Sprintf("[%s] %s", timestamp, msg)`. -/
def logEntry (timestamp msg : GoString) : GoString := [91] ++ timestamp ++ [93, 32] ++ msg

/-- Go `addLog`; `timestamp` is `time.Now().Format("15:04:05")`. -/
def addLog (timestamp msg : GoString) (s : Service) : Service :=
  let logs := s.logs ++ [logEntry timestamp msg]
  if (logs.length : Int) > s.maxLogs then
    { s with logs := logs.drop ((logs.length : Int) - s.maxLogs).toNat }
  else { s with logs := logs }

/-- Go `GetLogs`. -/
def GetLogs (s : Service) (lastN : Int) : List GoString :=
  let lastN := if lastN ≤ 0 ∨ lastN > (s.logs.length : Int) then (s.logs.length : Int) else lastN
  let start := (s.logs.length : Int) - lastN
  s.logs.drop start.toNat

/-- The service after a sequence of `addLog` calls, each given as `(timestamp, msg)`. -/
def addLogs (calls : List (GoString × GoString)) (s : Service) : Service :=
  calls.foldl (fun s1 c => addLog c.1 c.2 s1) s

/-! ## Process supervisor -/

/-- What `StartNode` gets from the operating system. -/
structure StartEnv where
  /-- whether `runtime.GOOS` is "windows" -/
  windows : Bool
  /-- Go `os.Environ()` -/
  environ : List GoString
  /-- the process `cmd.Start()` starts, `none` when it fails -/
  launch : Option Process
  /-- the timestamp of the `addLog` call -/
  now : GoString
  deriving DecidableEq, Repr

/-- Go `exec.Command(name, args...)`: not started yet. -/
def execCommand (name : GoString) (args : List GoString) : Cmd :=
  { Path := name, Args := name :: args, Env := [], Process := none }

/-- The bytes of "Node started (direct)". -/
def msgStartedDirect : GoString :=
  [78, 111, 100, 101, 32, 115, 116, 97, 114, 116, 101, 100, 32, 40, 100, 105, 114, 101, 99, 116,
   41]

/-- The bytes of "Node started via Cosmovisor (auto-upgrade enabled)". -/
def msgStartedCosmovisor : GoString :=
  [78, 111, 100, 101, 32, 115, 116, 97, 114, 116, 101, 100, 32, 118, 105, 97, 32, 67, 111, 115,
   109, 111, 118, 105, 115, 111, 114, 32, 40, 97, 117, 116, 111, 45, 117, 112, 103, 114, 97, 100,
   101, 32, 101, 110, 97, 98, 108, 101, 100, 41]

/-- The bytes of "Node stopped". -/
def msgStopped : GoString := [78, 111, 100, 101, 32, 115, 116, 111, 112, 112, 101, 100]

/-- The bytes of "Node stopped (cosmovisor)". -/
def msgStoppedCosmovisor : GoString :=
  [78, 111, 100, 101, 32, 115, 116, 111, 112, 112, 101, 100, 32, 40, 99, 111, 115, 109, 111, 118,
   105, 115, 111, 114, 41]

/-- The variables `startWithCosmovisor` appends to the environment:
"DAEMON_NAME=tickfy-blockchaind", "DAEMON_HOME=" followed by the node home,
"DAEMON_ALLOW_DOWNLOAD_BINARIES=true", "DAEMON_RESTART_AFTER_UPGRADE=true",
"DAEMON_POLL_INTERVAL=300ms" and "UNSAFE_SKIP_BACKUP=true". -/
def cosmovisorEnv (nodeHome : GoString) : List GoString :=
  [[68, 65, 69, 77, 79, 78, 95, 78, 65, 77, 69, 61] ++ strDaemon,
   [68, 65, 69, 77, 79, 78, 95, 72, 79, 77, 69, 61] ++ nodeHome,
   [68, 65, 69, 77, 79, 78, 95, 65, 76, 76, 79, 87, 95, 68, 79, 87, 78, 76, 79, 65, 68, 95, 66,
    73, 78, 65, 82, 73, 69, 83, 61, 116, 114, 117, 101],
   [68, 65, 69, 77, 79, 78, 95, 82, 69, 83, 84, 65, 82, 84, 95, 65, 70, 84, 69, 82, 95, 85, 80,
    71, 82, 65, 68, 69, 61, 116, 114, 117, 101],
   [68, 65, 69, 77, 79, 78, 95, 80, 79, 76, 76, 95, 73, 78, 84, 69, 82, 86, 65, 76, 61, 51, 48,
    48, 109, 115],
   [85, 78, 83, 65, 70, 69, 95, 83, 75, 73, 80, 95, 66, 65, 67, 75, 85, 80, 61, 116, 114, 117, 101]]

/-- Go `startWithCosmovisor`. The three goroutines it starts run later. -/
def startWithCosmovisor (e : StartEnv) (s : Service) (nodeHome : GoString) :
    Option Error × Service :=
  let cosmovisorPath := getCosmovisorPath e.windows s
  let env := e.environ ++ cosmovisorEnv nodeHome
  let cmd := { execCommand cosmovisorPath [strRun, strStart, strHome, nodeHome] with Env := env }
  let s := { s with nodeCmd := some cmd }
  match e.launch with
  | none => (some .execStart, s)
  | some proc =>
    let s := { s with nodeCmd := some { cmd with Process := some proc } }
    (none, addLog e.now msgStartedCosmovisor s)

/-- Go `StartNode`. The three goroutines it starts run later. -/
def StartNode (e : StartEnv) (d : Disk) (s : Service) : Option Error × Service :=
  if isNodeRunning s then (some .nodeJaRodando, s)
  else
    let nodeHome := getNodeHome s
    if IsCosmovisorEnabled d then startWithCosmovisor e s nodeHome
    else
      let binaryPath := getBinaryPath e.windows s
      let cmd := execCommand binaryPath [strStart, strHome, nodeHome]
      let s := { s with nodeCmd := some cmd }
      match e.launch with
      | none => (some .execStart, s)
      | some proc =>
        let s := { s with nodeCmd := some { cmd with Process := some proc } }
        (none, addLog e.now msgStartedDirect s)

/-- The monitor goroutine of `StartNode` and `startWithCosmovisor` once `Wait`
has returned: it clears the handle and logs. -/
def exitWatcher (now : GoString) (wrapped : Bool) (s : Service) : Service :=
  let s := { s with nodeCmd := none }
  addLog now (if wrapped then msgStoppedCosmovisor else msgStopped) s

/-- Go `StopNode`; `now` is the timestamp of its `addLog` call. -/
def StopNode (now : GoString) (s : Service) : Option Error × Service :=
  if ¬ isNodeRunning s then (some .nodeNaoRodando, s)
  else
    let s := { s with nodeCmd := none }
    (none, addLog now msgStopped s)

/-- The process a live handle holds. -/
def handleProcess (s : Service) : Option Process :=
  match s.nodeCmd with
  | none => none
  | some cmd => cmd.Process

/-- A monitor goroutine, blocked in `Wait` until its process has exited. -/
structure Watcher where
  proc : Process
  wrapped : Bool
  deriving DecidableEq, Repr

/-- The service together with the operating system side: the files, the
launched daemon processes that are still alive, and the monitor goroutines
that have not run yet. -/
structure World where
  svc : Service
  disk : Disk
  alive : List Process
  watchers : List Watcher
  deriving DecidableEq, Repr

/-- The steps of the supervisor, each atomic under the handle mutex. -/
inductive Action where
  /-- a `StartNode` call -/
  | start (e : StartEnv)
  /-- a `StopNode` call -/
  | stop (now : GoString)
  /-- a launched process exits by itself -/
  | exit (p : Process)
  /-- the monitor goroutine of an exited process clears the handle -/
  | watch (wt : Watcher) (now : GoString)
  deriving DecidableEq, Repr

/-- One step. `StartNode` adds the started process and its monitor goroutine;
`StopNode` kills the process of the handle, which is dead from then on; a
monitor goroutine runs only once its process is dead. -/
def step (w : World) : Action → World
  | .start e =>
    let r := StartNode e w.disk w.svc
    match r.1, e.launch with
    | none, some p =>
      { w with svc := r.2, alive := p :: w.alive,
               watchers := { proc := p, wrapped := IsCosmovisorEnabled w.disk } :: w.watchers }
    | _, _ => { w with svc := r.2 }
  | .stop now =>
    let r := StopNode now w.svc
    match r.1, handleProcess w.svc with
    | none, some p => { w with svc := r.2, alive := w.alive.filter (fun q => decide (q ≠ p)) }
    | _, _ => { w with svc := r.2 }
  | .exit p =>
    if p ∈ w.alive then { w with alive := w.alive.filter (fun q => decide (q ≠ p)) } else w
  | .watch wt now =>
    if wt ∈ w.watchers ∧ wt.proc ∉ w.alive then
      { w with svc := exitWatcher now wt.wrapped w.svc, watchers := w.watchers.erase wt }
    else w

/-- The world after a sequence of steps. -/
def run (w : World) (actions : List Action) : World := actions.foldl step w

/-- The world of a newly created service: no process, no goroutine. -/
def initWorld (dataDir : GoString) (d : Disk) : World :=
  { svc := NewService dataDir, disk := d, alive := [], watchers := [] }

/-- The supervision property: at most one launched process is alive, and the
handle is absent only when none is. -/
def Supervised (w : World) : Prop :=
  w.alive.length ≤ 1 ∧ (isNodeRunning w.svc = false → w.alive = [])

instance (w : World) : Decidable (Supervised w) := by
  unfold Supervised; infer_instance

/-- A timestamp, "12:00:00". -/
def noon : GoString := [49, 50, 58, 48, 48, 58, 48, 48]

/-- A successful launch of the process with the given pid. -/
def launchEnv (pid : Int) : StartEnv :=
  { windows := false, environ := [], launch := some { Pid := pid }, now := noon }

/-- A failing launch. -/
def failEnv : StartEnv := { windows := false, environ := [], launch := none, now := noon }

/-- The schedule that defeats the supervisor: start process 1, stop it, start
process 2, let the monitor goroutine of process 1 run, start process 3. -/
def staleWatcherTrace : List Action :=
  [.start (launchEnv 1), .stop noon, .start (launchEnv 2),
   .watch { proc := { Pid := 1 }, wrapped := false } noon, .start (launchEnv 3)]

/-! ## Status aggregator -/

structure AppStatus where
  HasWallet : Bool
  IsNodeInstalled : Bool
  IsNodeInitialized : Bool
  IsNodeRunning : Bool
  IsValidator : Bool
  IsCosmovisorInstalled : Bool
  WalletAddress : GoString
  Moniker : GoString
  CurrentBlock : Int
  Peers : Int
  deriving DecidableEq, Repr

/-- What `GetStatus` gets from outside the process. -/
structure StatusEnv where
  load : LoadEnv
  /-- the `(block, peers)` of `getNodeInfo`, `none` when it returns an error -/
  nodeInfo : Option (Int × Int)
  deriving DecidableEq, Repr

/-- The wallet part of `GetStatus`: the address of the first record with the
active id, and the first record when that left the address empty. -/
def statusWallet (store : WalletsStore) (status : AppStatus) : AppStatus :=
  if store.Wallets.length > 0 then
    let status := { status with HasWallet := true }
    let status :=
      match store.Wallets.find? (fun w => w.ID = store.ActiveWalletID) with
      | some w => { status with WalletAddress := w.Address }
      | none => status
    if status.WalletAddress = [] ∧ store.Wallets.length > 0 then
      match store.Wallets with
      | w0 :: _ => { status with WalletAddress := w0.Address }
      | [] => status
    else status
  else status

/-- Go `GetStatus`: the status, the service and the files afterwards. -/
def GetStatus (e : StatusEnv) (d : Disk) (s : Service) : AppStatus × Service × Disk :=
  let status : AppStatus :=
    { HasWallet := false, IsNodeInstalled := false, IsNodeInitialized := false,
      IsNodeRunning := false, IsValidator := false, IsCosmovisorInstalled := false,
      WalletAddress := [], Moniker := [], CurrentBlock := 0, Peers := 0 }
  let loaded := loadWalletsStore e.load d
  let d1 := loaded.2.2
  let status := statusWallet loaded.1 status
  let status := if d1.binary then { status with IsNodeInstalled := true } else status
  let status :=
    match d1.nodeConfigJson with
    | .missing => status
    | _ => { status with IsNodeInitialized := true }
  let status := if d1.validatorJson then { status with IsValidator := true } else status
  let status :=
    if d1.cosmovisorBinary then { status with IsCosmovisorInstalled := true } else status
  let status := { status with IsNodeRunning := isNodeRunning s }
  let status :=
    if status.IsNodeRunning then
      match e.nodeInfo with
      | some info => { status with CurrentBlock := info.1, Peers := info.2 }
      | none => status
    else status
  let status :=
    match d1.nodeConfigJson with
    | .json cfg => { status with Moniker := cfg.Moniker }
    | _ => status
  (status, s, d1)

/-- The inputs of a `GetStatus` call with a working disk and no RPC answer. -/
def demoStatusEnv : StatusEnv := { load := demoLoadEnv, nodeInfo := none }

/-! ## Balance formatting

A finite `float64` is modelled by its exact value, a fraction; arithmetic
rounds the exact result to the nearest value with a 53-bit significand, ties to
even (exponent range not modelled: the values here lie between `10⁻⁶` and
`2⁶³`). `fmt.Sprintf("%.Nf", x)` prints the exact value rounded to `N`
decimals, ties to even. -/

/-- The exact value `num / den` of a finite `float64`. -/
structure Float64 where
  num : Int
  den : Nat
  deriving DecidableEq, Repr

/-- The integer nearest to `n / d`, ties to even. -/
def roundHalfEven (n d : Nat) : Nat :=
  let q := n / d
  let r := n % d
  if 2 * r < d then q
  else if d < 2 * r then q + 1
  else if q % 2 = 0 then q else q + 1

/-- The number of binary digits of `n` (given enough fuel). -/
def bitLen : Nat → Nat → Nat
  | 0, _ => 0
  | fuel + 1, n => if n = 0 then 0 else bitLen fuel (n / 2) + 1

/-- The exponent `e` with `2 ^ e ≤ n / d < 2 ^ (e + 1)`, for positive `n` and `d`. -/
def floorLog2 (n d : Nat) : Int :=
  let s := bitLen n n
  let t := bitLen d d
  if d * 2 ^ s ≤ n * 2 ^ t then (s : Int) - t else (s : Int) - t - 1

/-- The `float64` nearest to `num / den`: the significand is the quotient scaled
to 53 bits and rounded, ties to even. -/
def roundFloat64 (num : Int) (den : Nat) : Float64 :=
  let n := num.natAbs
  if n = 0 then { num := 0, den := 1 }
  else
    let e := floorLog2 n den
    if 52 ≤ e then
      let shift := (e - 52).toNat
      let m := roundHalfEven n (den * 2 ^ shift)
      { num := num.sign * (m * 2 ^ shift : Nat), den := 1 }
    else
      let shift := (52 - e).toNat
      let m := roundHalfEven (n * 2 ^ shift) den
      { num := num.sign * (m : Nat), den := 2 ^ shift }

/-- The conversion `float64(a)` of an integer: exact below `2 ^ 53`. -/
def float64OfInt (a : Int) : Float64 :=
  if a.natAbs < 2 ^ 53 then { num := a, den := 1 } else roundFloat64 a 1

/-- The `float64` quotient `x / y`. -/
def float64Div (x y : Float64) : Float64 :=
  roundFloat64 (x.num * y.den * y.num.sign) (x.den * y.num.natAbs)

/-- The comparison `x >= y` of two `float64`. -/
def float64Ge (x y : Float64) : Bool := decide (y.num * x.den ≤ x.num * y.den)

/-- The decimal digits of `n` in front of `acc`, most significant first. -/
def decimalDigitsAux : Nat → Nat → List Byte → List Byte
  | 0, _, acc => acc
  | fuel + 1, n, acc =>
    let acc1 := Fin.ofNat (48 + n % 10) :: acc
    if n / 10 = 0 then acc1 else decimalDigitsAux fuel (n / 10) acc1

/-- The decimal digits of `n`, as `strconv` prints them. -/
def decimalDigits (n : Nat) : List Byte := decimalDigitsAux (n + 1) n []

/-- The last `prec` decimal digits of `k`, zero padded. -/
def fracDigits : Nat → Nat → List Byte
  | 0, _ => []
  | prec + 1, k => Fin.ofNat (48 + (k / 10 ^ prec) % 10) :: fracDigits prec k

/-- The text of `fmt.Sprintf("%.Nf", x)` for `N = prec`. -/
def formatFixed (prec : Nat) (x : Float64) : GoString :=
  let scaled := roundHalfEven (x.num.natAbs * 10 ^ prec) x.den
  let sign : GoString := if x.num < 0 then [45] else []
  let frac : GoString := if prec = 0 then [] else 46 :: fracDigits prec (scaled % 10 ^ prec)
  sign ++ decimalDigits (scaled / 10 ^ prec) ++ frac

/-- Go `strings.Split(s, sep)` for a separator of one byte. -/
def stringsSplit (sep : Byte) : GoString → List GoString
  | [] => [[]]
  | c :: cs =>
    if c = sep then [] :: stringsSplit sep cs
    else
      match stringsSplit sep cs with
      | [] => [[c]]
      | p :: ps => (c :: p) :: ps

/-- The loop of `formatBalance` over the bytes of `intPart` from index `i` on:
a comma before every byte whose distance to the end is a multiple of three,
except the first. -/
def commaLoop (len : Nat) : Nat → GoString → GoString → GoString
  | _, [], formatted => formatted
  | i, c :: cs, formatted =>
    let formatted := if 0 < i ∧ (len - i) % 3 = 0 then formatted ++ [44] else formatted
    commaLoop len (i + 1) cs (formatted ++ [c])

/-- The bytes of "TKFY". -/
def strTKFY : GoString := [84, 75, 70, 89]

/-- Go `formatBalance`. -/
def formatBalance (tkfy : Float64) : GoString :=
  let display :=
    if float64Ge tkfy (float64OfInt 1000000) then formatFixed 0 tkfy ++ [32] ++ strTKFY
    else formatFixed 2 tkfy ++ [32] ++ strTKFY
  match stringsSplit 32 display with
  | [numStr, unit] =>
    let numParts := stringsSplit 46 numStr
    let intPart := numParts.headD []
    let formatted := commaLoop intPart.length 0 intPart []
    match numParts with
    | _ :: frac :: _ =>
      if frac ≠ [48, 48] then formatted ++ [46] ++ frac ++ [32] ++ unit
      else formatted ++ [32] ++ unit
    | _ => formatted ++ [32] ++ unit
  | _ => display

/-- The display `GetBalance` computes from the parsed amount:
`formatBalance(float64(amount) / 1000000)`. -/
def balanceDisplay (amount : Int) : GoString :=
  formatBalance (float64Div (float64OfInt amount) (float64OfInt 1000000))

/-- The display the two-decimal truncation rule describes for `a` micro-units:
the grouped integer part of `a / 10⁶`, a point, the two decimals of `a / 10⁶`
cut off, and " TKFY". -/
def truncatedDisplay (a : Nat) : GoString :=
  let intPart := decimalDigits (a / 1000000)
  commaLoop intPart.length 0 intPart [] ++ [46] ++ fracDigits 2 (a / 10000 % 100) ++ [32] ++
    strTKFY

/-- The display of `r` hundredths: the grouped integer part, the two decimals
unless they are zero, and " TKFY". -/
def hundredthsDisplay (r : Nat) : GoString :=
  let intPart := decimalDigits (r / 100)
  commaLoop intPart.length 0 intPart [] ++
    (if r % 100 = 0 then [] else [46] ++ fracDigits 2 (r % 100)) ++ [32] ++ strTKFY

/-! ## Signing mnemonic -/

/-- Go `getMnemonic`: reads `wallet.json`. -/
def getMnemonic (P : Primitives) (d : Disk) (password : GoString) : Except Error GoString :=
  match d.walletJson with
  | .missing => .error .carteiraNaoEncontrada
  | .garbage => .error .jsonUnmarshal
  | .json w => decryptData P w.EncryptedMnemonic password w.Salt

/-- The inputs of a load whose write fails before the file is touched. -/
def failingWriteEnv : LoadEnv := { idBytes := [1, 2], write := .failedUntouched, removeOk := true }

/-- A record without an address, as a hand-edited store file can hold. -/
def eveWallet : WalletData :=
  { ID := [101, 51], Address := [], Name := [101, 118, 101], EncryptedMnemonic := [48, 52],
    Salt := [48, 53], CreatedAt := 1600000900 }

/-- A store file with two records whose active record, the second, has no address. -/
def emptyAddressDisk : Disk :=
  { walletsJson := .json { Wallets := [carolWallet, eveWallet], ActiveWalletID := [101, 51] },
    walletJson := .missing }

/-- The status `GetStatus` starts from. -/
def zeroStatus : AppStatus :=
  { HasWallet := false, IsNodeInstalled := false, IsNodeInitialized := false,
    IsNodeRunning := false, IsValidator := false, IsCosmovisorInstalled := false,
    WalletAddress := [], Moniker := [], CurrentBlock := 0, Peers := 0 }

/-! ## Grouping of digits, stated on its own -/

/-- Consecutive groups of three. -/
def chunks3 : List Byte → List (List Byte)
  | a :: b :: c :: rest => [a, b, c] :: chunks3 rest
  | _ => []

/-- The groups of a digit string: a first group of one to three digits, then
groups of three. -/
def groupsOf (ds : List Byte) : List (List Byte) :=
  match ds with
  | [] => []
  | _ :: _ =>
    ds.take ((ds.length + 2) % 3 + 1) :: chunks3 (ds.drop ((ds.length + 2) % 3 + 1))

/-- The groups written one after the other with a comma between two groups. -/
def joinWithCommas : List (List Byte) → List Byte
  | [] => []
  | [g] => g
  | g :: h :: gs => g ++ 44 :: joinWithCommas (h :: gs)

/-- The text the loop of `formatBalance` adds for the remaining bytes: a comma
before a byte when it is not the first and the number of bytes from it to the
end is a multiple of three. -/
def commaTail (first : Bool) : List Byte → List Byte
  | [] => []
  | c :: cs =>
    (if first = false ∧ (cs.length + 1) % 3 = 0 then [44] else []) ++ c :: commaTail false cs

/-! ## Strings in the store file (`unicode/utf8`, `encoding/json`) -/

/-- The tables `first` and `acceptRanges` of `unicode/utf8` for a byte from
`0x80` on: the size of the encoding the byte starts and the bounds its second
byte must lie in; `none` for a byte that starts no encoding. -/
def utf8First (b : Byte) : Option (Nat × Nat × Nat) :=
  if b.val < 0xC2 then none
  else if b.val < 0xE0 then some (2, 0x80, 0xBF)
  else if b.val = 0xE0 then some (3, 0xA0, 0xBF)
  else if b.val = 0xED then some (3, 0x80, 0x9F)
  else if b.val < 0xF0 then some (3, 0x80, 0xBF)
  else if b.val = 0xF0 then some (4, 0x90, 0xBF)
  else if b.val < 0xF4 then some (4, 0x80, 0xBF)
  else if b.val = 0xF4 then some (4, 0x80, 0x8F)
  else none

/-- The size of the encoding a string starts with, as `utf8.DecodeRuneInString`
and `utf8.ValidString` find it; 0 when the first byte starts no valid encoding
(Go `(RuneError, 1)`) and for the empty string. -/
def utf8Size : GoString → Nat
  | [] => 0
  | s0 :: rest =>
    if s0.val < 0x80 then 1
    else
      match utf8First s0 with
      | none => 0
      | some (size, lo, hi) =>
        if rest.length + 1 < size then 0
        else
          match rest with
          | [] => 0
          | s1 :: rest1 =>
            if s1.val < lo ∨ hi < s1.val then 0
            else if size = 2 then 2
            else
              match rest1 with
              | [] => 0
              | s2 :: rest2 =>
                if s2.val < 0x80 ∨ 0xBF < s2.val then 0
                else if size = 3 then 3
                else
                  match rest2 with
                  | [] => 0
                  | s3 :: _ => if s3.val < 0x80 ∨ 0xBF < s3.val then 0 else 4

/-- The loop of `utf8.ValidString`; `skip` counts the bytes of the current
encoding still to pass. -/
def utf8ValidFrom : Nat → GoString → Bool
  | _, [] => true
  | skip + 1, _ :: rest => utf8ValidFrom skip rest
  | 0, s0 :: rest =>
    match utf8Size (s0 :: rest) with
    | 0 => false
    | size + 1 => utf8ValidFrom size rest

/-- Go `utf8.ValidString`. -/
def utf8ValidString (s : GoString) : Bool := utf8ValidFrom 0 s

/-- The loop of `jsonString`; `skip` counts the bytes of the current encoding
still to copy. -/
def jsonStringFrom : Nat → GoString → GoString
  | _, [] => []
  | skip + 1, b :: rest => b :: jsonStringFrom skip rest
  | 0, s0 :: rest =>
    match utf8Size (s0 :: rest) with
    | 0 => 0xEF :: 0xBF :: 0xBD :: jsonStringFrom 0 rest
    | size + 1 => s0 :: jsonStringFrom size rest

/-- The string `json.Unmarshal` reads back from what `json.MarshalIndent` wrote
for a string: a byte that starts no valid encoding is written as the escape of
U+FFFD and read back as the three bytes of U+FFFD, every other byte is read
back as it was. -/
def jsonString (s : GoString) : GoString := jsonStringFrom 0 s

/-- The bytes of the Go string `"\xff"` -/
def strFF : GoString := [0xFF]

/-- The store of the data model: every record has an address. -/
def HasAddresses (st : WalletsStore) : Prop := ∀ w ∈ st.Wallets, w.Address ≠ []

instance (st : WalletsStore) : Decidable (HasAddresses st) := by
  unfold HasAddresses; infer_instance

/-! ## Repeated loads -/

/-- The files after one `loadWalletsStore` call for each of the given inputs, in order. -/
def loadsAfter (es : List LoadEnv) (d : Disk) : Disk :=
  es.foldl (fun d1 e => (loadWalletsStore e d1).2.2) d

/-- A legacy single-wallet file and no store file. -/
def legacyDisk : Disk := { walletsJson := .missing, walletJson := .json carolWallet }

/-! ## Lemmas: hex -/

set_option maxRecDepth 1000000 in
theorem hex_byte_roundtrip : ∀ v : Byte,
    reverseHexTable (hextable.getD (v.val >>> 4) 0) ≤ 0x0f ∧
    reverseHexTable (hextable.getD (v.val &&& 0x0f) 0) ≤ 0x0f ∧
    (Fin.ofNat ((reverseHexTable (hextable.getD (v.val >>> 4) 0) <<< 4) |||
      reverseHexTable (hextable.getD (v.val &&& 0x0f) 0)) : Byte) = v := by
  decide

theorem hexDecode_hexEncode (bs : List Byte) :
    hexDecodeString (hexEncodeToString bs) = .ok bs := by
  induction bs with
  | nil => rfl
  | cons v rest ih =>
    obtain ⟨h1, h2, h3⟩ := hex_byte_roundtrip v
    simp only [hexEncodeToString, hexDecodeString, ih]
    rw [if_neg (by omega), if_neg (by omega), h3]

theorem toy_gcmSpec : GCMSpec toy where
  seal_length := by
    intro key nonce pt
    simp [toy, toySeal, toyTag, gcmTagSize]
  open_seal := by
    intro key nonce pt _ _
    simp [toy, toySeal, toyOpen, toyTag]

/-! ## Lemmas: envelope crypto -/

theorem aesNewCipher_key32 (key : Key32) : aesNewCipher key.val = .ok key.val := by
  simp [aesNewCipher, key.property]

theorem encryptData_eq (P : Primitives) (nonce plaintext password salt : GoString) :
    encryptData P nonce plaintext password salt =
      .ok (hexEncodeToString (nonce ++ P.gcmSeal (P.sum256 (password ++ salt)).val nonce plaintext)) := by
  simp [encryptData, aesNewCipher_key32, cipherNewGCM, gcmSealTo]

theorem decryptData_of_decoded (P : Primitives) (cipherHex password salt : GoString)
    (bs : List Byte) (hdec : hexDecodeString cipherHex = .ok bs) :
    decryptData P cipherHex password salt =
      if bs.length < gcmNonceSize then .error .ciphertextMuitoCurto
      else
        match gcmOpenFrom P (P.sum256 (password ++ salt)).val (bs.take gcmNonceSize)
            (bs.drop gcmNonceSize) with
        | none => .error .senhaIncorreta
        | some plaintext => .ok plaintext := by
  simp [decryptData, hdec, aesNewCipher_key32, cipherNewGCM]

/-! ## Envelope crypto: the claims -/

/-- C1: for every plaintext, password and salt and every 12-byte nonce,
`encryptData` succeeds and `decryptData` of its result under the same password
and salt succeeds and returns exactly the plaintext (AES-GCM being correct). -/
theorem encrypt_decrypt_roundtrip (P : Primitives) (hgcm : GCMSpec P)
    (nonce plaintext password salt : GoString) (hnonce : nonce.length = gcmNonceSize) :
    ∃ cipherHex, encryptData P nonce plaintext password salt = .ok cipherHex ∧
      decryptData P cipherHex password salt = .ok plaintext := by
  refine ⟨_, encryptData_eq P nonce plaintext password salt, ?_⟩
  rw [decryptData_of_decoded P _ password salt _ (hexDecode_hexEncode _)]
  have hlen := hgcm.seal_length (P.sum256 (password ++ salt)).val nonce plaintext
  have hopen := hgcm.open_seal (P.sum256 (password ++ salt)).val nonce plaintext
    (P.sum256 (password ++ salt)).property hnonce
  have htake : (nonce ++ P.gcmSeal (P.sum256 (password ++ salt)).val nonce plaintext).take
      gcmNonceSize = nonce := by
    rw [← hnonce]; simp
  have hdrop : (nonce ++ P.gcmSeal (P.sum256 (password ++ salt)).val nonce plaintext).drop
      gcmNonceSize = P.gcmSeal (P.sum256 (password ++ salt)).val nonce plaintext := by
    rw [← hnonce]; simp
  rw [htake, hdrop, if_neg (by simp [hnonce])]
  simp [gcmOpenFrom, hlen, hopen]

/-- Witness of C1 on the small instance: plaintext `[1,2,3]`, password `[4]`,
salt `[5]` and the nonce `0,…,11`. -/
theorem encrypt_decrypt_roundtrip_witness :
    GCMSpec toy ∧
    ([0, 1, 2, 3, 4, 5, 6, 7, 8, 9, 10, 11] : List Byte).length = gcmNonceSize ∧
    ∃ cipherHex,
      encryptData toy [0, 1, 2, 3, 4, 5, 6, 7, 8, 9, 10, 11] [1, 2, 3] [4] [5] = .ok cipherHex ∧
      decryptData toy cipherHex [4] [5] = .ok [1, 2, 3] :=
  ⟨toy_gcmSpec, by decide,
    encrypt_decrypt_roundtrip toy toy_gcmSpec [0, 1, 2, 3, 4, 5, 6, 7, 8, 9, 10, 11] [1, 2, 3] [4] [5]
      (by decide)⟩

/-- C2, as stated, fails: the empty input (shorter than a nonce) is answered
with "ciphertext muito curto", an input of one nonce and no tag with "senha
incorreta", whatever the primitives, the password and the salt; the two errors
and their messages differ. -/
theorem decryptData_short_vs_tag_differ :
    (∀ (P : Primitives) (password salt : GoString),
      hexDecodeString [] = .ok [] ∧ ([] : List Byte).length < gcmNonceSize ∧
      decryptData P [] password salt = .error .ciphertextMuitoCurto) ∧
    (∀ (P : Primitives) (password salt : GoString),
      hexDecodeString zeroNonceHex = .ok (List.replicate 12 0) ∧
      gcmOpenFrom P (P.sum256 (password ++ salt)).val (List.replicate 12 0) [] = none ∧
      decryptData P zeroNonceHex password salt = .error .senhaIncorreta) ∧
    Error.ciphertextMuitoCurto ≠ Error.senhaIncorreta ∧
    Error.ciphertextMuitoCurto.message ≠ Error.senhaIncorreta.message := by
  have hz : hexDecodeString zeroNonceHex = .ok (List.replicate 12 0) := by decide
  refine ⟨fun P password salt => ⟨rfl, by decide, ?_⟩,
    fun P password salt => ⟨hz, by simp [gcmOpenFrom, gcmTagSize], ?_⟩, by decide, by decide⟩
  · rw [decryptData_of_decoded P [] password salt [] rfl]; rfl
  · rw [decryptData_of_decoded P zeroNonceHex password salt _ hz]
    simp [gcmNonceSize, gcmOpenFrom, gcmTagSize]

/-- C2, amended: when the decoded input is shorter than one nonce (12 bytes)
`decryptData` fails with "ciphertext muito curto"; when it is at least one nonce
long and the tag does not verify it fails with "senha incorreta"; these are two
different errors. -/
theorem decryptData_failure_kinds (P : Primitives) (cipherHex password salt : GoString)
    (bs : List Byte) (hdec : hexDecodeString cipherHex = .ok bs) :
    (bs.length < 12 → decryptData P cipherHex password salt = .error .ciphertextMuitoCurto) ∧
    (12 ≤ bs.length →
      gcmOpenFrom P (P.sum256 (password ++ salt)).val (bs.take 12) (bs.drop 12) = none →
      decryptData P cipherHex password salt = .error .senhaIncorreta) ∧
    Error.ciphertextMuitoCurto ≠ Error.senhaIncorreta := by
  rw [decryptData_of_decoded P cipherHex password salt bs hdec]
  refine ⟨fun h => by simp [gcmNonceSize, h], fun h hopen => ?_, by decide⟩
  rw [if_neg (by simp [gcmNonceSize, h])]
  simp only [gcmNonceSize, hopen]

/-- Witness of the amended C2: the hex text of twelve zero bytes followed by
sixteen bytes that are not the tag, on the small instance. -/
theorem decryptData_failure_kinds_witness :
    hexDecodeString (List.replicate 56 48) = .ok (List.replicate 28 0) ∧
    decryptData toy (List.replicate 56 48) [4] [5] = .error .senhaIncorreta :=
  ⟨by decide,
    (decryptData_failure_kinds toy (List.replicate 56 48) [4] [5] (List.replicate 28 0)
      (by decide)).2.1 (by decide) (by decide)⟩

/-! ## Lemmas: wallet store -/

theorem toy_bip39Spec : Bip39Spec toy where
  newMnemonic_valid := by
    intro entropy h
    simp [toy, h]

theorem loadWalletsStore_err (e : LoadEnv) (d : Disk) : (loadWalletsStore e d).2.1 = none := by
  unfold loadWalletsStore
  split
  · split
    · split <;> rfl
    · rfl
  · rfl
  · rfl

theorem loadWalletsStore_disk (e : LoadEnv) (d : Disk) (h : legacyPending d = false) :
    (loadWalletsStore e d).2.2 = d := by
  unfold loadWalletsStore
  unfold legacyPending at h
  split
  · split
    · rename_i hstore _ oldWallet hold
      rw [hstore, hold] at h
      simp only [decide_eq_false_iff_not] at h
      rw [if_neg h]
    · rfl
  · rfl
  · rfl

theorem loadWalletsStore_json (e : LoadEnv) (d : Disk) (st : WalletsStore)
    (h : d.walletsJson = .json st) : loadWalletsStore e d = (st, none, d) := by
  simp [loadWalletsStore, h]

theorem CreateWallet_ok (P : Primitives) (e : WalletEnv) (d : Disk) (name password : GoString)
    (r : GoString × GoString × GoString) (h : (CreateWallet P e d name password).1 = .ok r) :
    r = (generateWalletID e.idBytes, deriveAddress P (P.newMnemonic e.entropy),
      P.newMnemonic e.entropy) ∧
    (CreateWallet P e d name password).2 =
      { (loadWalletsStore e.load d).2.2 with
        walletsJson := .json (storeWithNew P e d name (P.newMnemonic e.entropy) password) } := by
  simp only [CreateWallet, encryptData_eq, saveWalletsStore] at h ⊢
  cases hw : e.write
  · simp only [hw] at h ⊢
    simp only [Except.ok.injEq] at h
    exact ⟨h.symm, rfl⟩
  · simp [hw] at h
  · simp [hw] at h

theorem ImportWallet_ok (P : Primitives) (e : WalletEnv) (d : Disk)
    (name mnemonic password : GoString) (r : GoString × GoString)
    (h : (ImportWallet P e d name mnemonic password).1 = .ok r) :
    r = (generateWalletID e.idBytes, deriveAddress P mnemonic) ∧
    (ImportWallet P e d name mnemonic password).2 =
      { (loadWalletsStore e.load d).2.2 with
        walletsJson := .json (storeWithNew P e d name mnemonic password) } := by
  simp only [ImportWallet, encryptData_eq, saveWalletsStore] at h ⊢
  by_cases hv : P.isMnemonicValid mnemonic = true
  · by_cases hany : (loadWalletsStore e.load d).1.Wallets.any
        (fun w => decide (w.Address = deriveAddress P mnemonic)) = true
    · simp [hv, hany] at h
    · cases hw : e.write
      · simp only [hv, hany, hw, not_true_eq_false, if_false] at h ⊢
        simp only [Bool.false_eq_true, if_false, Except.ok.injEq] at h ⊢
        exact ⟨h.symm, rfl⟩
      · simp [hv, hany, hw] at h
      · simp [hv, hany, hw] at h
  · simp [hv] at h

theorem ImportWallet_conflict (P : Primitives) (e : WalletEnv) (d : Disk)
    (name mnemonic password : GoString) (hvalid : P.isMnemonicValid mnemonic = true)
    (hdup : ∃ w ∈ (loadWalletsStore e.load d).1.Wallets, w.Address = deriveAddress P mnemonic) :
    ImportWallet P e d name mnemonic password =
      (.error .carteiraJaImportada, (loadWalletsStore e.load d).2.2) := by
  have hany : (loadWalletsStore e.load d).1.Wallets.any
      (fun w => decide (w.Address = deriveAddress P mnemonic)) = true := by
    simpa [List.any_eq_true] using hdup
  simp [ImportWallet, encryptData_eq, hvalid, hany]

theorem storeWithNew_has_address (P : Primitives) (e : WalletEnv) (d : Disk)
    (name mnemonic password : GoString) :
    ∃ w ∈ (storeWithNew P e d name mnemonic password).Wallets,
      w.Address = deriveAddress P mnemonic :=
  ⟨newWalletData P e name mnemonic password, by simp [storeWithNew], rfl⟩

/-! ## Wallet vault: the claims -/

/-- C4: an import of a valid mnemonic whose derived address is already the
address of a record of the store fails with "esta carteira já foi importada"
for every name and password and writes nothing (no record appended, active id
unchanged); so an import of the mnemonic a successful `ImportWallet` stored, or
of the mnemonic a successful `CreateWallet` returned, is rejected. -/
theorem ImportWallet_duplicate_rejected (P : Primitives) (hbip : Bip39Spec P) :
    (∀ (e : WalletEnv) (d : Disk) (name mnemonic password : GoString),
      P.isMnemonicValid mnemonic = true →
      (∃ w ∈ (loadWalletsStore e.load d).1.Wallets, w.Address = deriveAddress P mnemonic) →
      (ImportWallet P e d name mnemonic password).1 = .error .carteiraJaImportada ∧
      (ImportWallet P e d name mnemonic password).2 = (loadWalletsStore e.load d).2.2 ∧
      (legacyPending d = false → (ImportWallet P e d name mnemonic password).2 = d)) ∧
    (∀ (e e2 : WalletEnv) (d : Disk) (name mnemonic password name2 password2 : GoString)
      (r : GoString × GoString),
      (ImportWallet P e d name mnemonic password).1 = .ok r →
      ImportWallet P e2 (ImportWallet P e d name mnemonic password).2 name2 mnemonic password2 =
        (.error .carteiraJaImportada, (ImportWallet P e d name mnemonic password).2)) ∧
    (∀ (e e2 : WalletEnv) (d : Disk) (name password name2 password2 id address mnemonic : GoString),
      e.entropy.length = 32 →
      (CreateWallet P e d name password).1 = .ok (id, address, mnemonic) →
      ImportWallet P e2 (CreateWallet P e d name password).2 name2 mnemonic password2 =
        (.error .carteiraJaImportada, (CreateWallet P e d name password).2)) := by
  refine ⟨?_, ?_, ?_⟩
  · intro e d name mnemonic password hvalid hdup
    rw [ImportWallet_conflict P e d name mnemonic password hvalid hdup]
    exact ⟨rfl, rfl, fun hp => loadWalletsStore_disk e.load d hp⟩
  · intro e e2 d name mnemonic password name2 password2 r hok
    have hvalid : P.isMnemonicValid mnemonic = true := by
      by_contra hv
      simp [ImportWallet, hv] at hok
    obtain ⟨-, hdisk⟩ := ImportWallet_ok P e d name mnemonic password r hok
    have hload := loadWalletsStore_json e2.load (ImportWallet P e d name mnemonic password).2
      (storeWithNew P e d name mnemonic password) (by rw [hdisk])
    rw [ImportWallet_conflict P e2 _ name2 mnemonic password2 hvalid
      (by rw [hload]; exact storeWithNew_has_address P e d name mnemonic password), hload]
  · intro e e2 d name password name2 password2 id address mnemonic hent hok
    obtain ⟨hr, hdisk⟩ := CreateWallet_ok P e d name password _ hok
    have hm : mnemonic = P.newMnemonic e.entropy := by
      have := congrArg (fun r => r.2.2) hr
      simpa using this
    subst hm
    have hload := loadWalletsStore_json e2.load (CreateWallet P e d name password).2
      (storeWithNew P e d name (P.newMnemonic e.entropy) password) (by rw [hdisk])
    rw [ImportWallet_conflict P e2 _ name2 (P.newMnemonic e.entropy) password2
      (hbip.newMnemonic_valid e.entropy hent)
      (by rw [hload]; exact storeWithNew_has_address P e d name _ password), hload]

/-- Witness of C4 on the small instance: the mnemonic `CreateWallet` returned
for "alice" is imported again as "bob". -/
theorem ImportWallet_duplicate_rejected_witness :
    Bip39Spec toy ∧
    (CreateWallet toy demoEnv emptyDisk alice secret1).1 =
      .ok (generateWalletID [10, 11], deriveAddress toy demoEntropy, demoEntropy) ∧
    ImportWallet toy demoEnv2 (CreateWallet toy demoEnv emptyDisk alice secret1).2 bob
        demoEntropy secret2 =
      (.error .carteiraJaImportada, (CreateWallet toy demoEnv emptyDisk alice secret1).2) :=
  ⟨toy_bip39Spec, by decide,
    (ImportWallet_duplicate_rejected toy toy_bip39Spec).2.2 demoEnv demoEnv2 emptyDisk alice
      secret1 bob secret2 (generateWalletID [10, 11]) (deriveAddress toy demoEntropy) demoEntropy
      (by decide) (by decide)⟩

theorem GetWallets_json (e : LoadEnv) (d : Disk) (st : WalletsStore)
    (h : d.walletsJson = .json st) :
    GetWallets e d = (.ok (st.Wallets.map walletEntry, st.ActiveWalletID), d) := by
  simp [GetWallets, loadWalletsStore_json e d st h]

theorem jsonStringFrom_valid : ∀ (s : GoString) (k : Nat),
    utf8ValidFrom k s = true → jsonStringFrom k s = s := by
  intro s
  induction s with
  | nil => intro k _; cases k <;> rfl
  | cons b rest ih =>
    intro k h
    cases k with
    | succ k =>
      simp only [utf8ValidFrom, jsonStringFrom] at h ⊢
      rw [ih k h]
    | zero =>
      simp only [utf8ValidFrom, jsonStringFrom] at h ⊢
      cases hs : utf8Size (b :: rest) with
      | zero => rw [hs] at h; cases h
      | succ n =>
        rw [hs] at h
        simp only at h ⊢
        rw [ih n h]

/-- What `json.MarshalIndent` writes for a string that is valid UTF-8 is read
back as that string. -/
theorem jsonString_valid (s : GoString) (h : utf8ValidString s = true) : jsonString s = s :=
  jsonStringFrom_valid s 0 h

theorem utf8ValidFrom_ascii : ∀ s : GoString, (∀ b ∈ s, b.val < 0x80) →
    utf8ValidFrom 0 s = true := by
  intro s
  induction s with
  | nil => intro _; rfl
  | cons b rest ih =>
    intro h
    have hb : b.val < 0x80 := h b (by simp)
    simp only [utf8ValidFrom, utf8Size, hb, if_true]
    exact ih (fun c hc => h c (by simp [hc]))

set_option maxRecDepth 1000000 in
theorem hextable_ascii : ∀ v : Byte,
    (hextable.getD (v.val >>> 4) 0).val < 0x80 ∧
    (hextable.getD (v.val &&& 0x0f) 0).val < 0x80 := by
  decide

/-- The text of `hex.EncodeToString` is valid UTF-8: ids, salts and encrypted
mnemonics are written to the store file as they are. -/
theorem hexEncodeToString_valid (bs : List Byte) :
    utf8ValidString (hexEncodeToString bs) = true := by
  apply utf8ValidFrom_ascii
  induction bs with
  | nil => intro b hb; cases hb
  | cons v rest ih =>
    intro b hb
    simp only [hexEncodeToString, List.mem_cons] at hb
    rcases hb with hb | hb | hb
    · rw [hb]; exact (hextable_ascii v).1
    · rw [hb]; exact (hextable_ascii v).2
    · exact ih b hb

/-- The Go string `"\xff"` is not valid UTF-8: `json.MarshalIndent` writes it as
U+FFFD, which is read back as three other bytes; U+FFFD itself and "alice" are
written as they are. -/
theorem jsonString_examples :
    utf8ValidString strFF = false ∧ jsonString strFF = [0xEF, 0xBF, 0xBD] ∧
    utf8ValidString [0xEF, 0xBF, 0xBD] = true ∧
    jsonString [0xEF, 0xBF, 0xBD] = [0xEF, 0xBF, 0xBD] ∧
    utf8ValidString alice = true ∧ jsonString alice = alice := by
  decide

/-- C5: for a name that is valid UTF-8 (as is every name the HTTP handler
decodes from a request), a successful `CreateWallet` returning
`(id, address, mnemonic)` leaves a store file whose records are the loaded
records, in order, followed by one new record with that id, that name and
address `deriveAddress mnemonic`, and whose active id is `id`; that id and that
name are written by `json.MarshalIndent` as they are; `GetWallets` then lists
an entry with that id and that name and returns `id` as the active id. -/
theorem CreateWallet_appends_active (P : Primitives) (e : WalletEnv) (d : Disk)
    (name password id address mnemonic : GoString)
    (hname : utf8ValidString name = true)
    (hok : (CreateWallet P e d name password).1 = .ok (id, address, mnemonic)) :
    address = deriveAddress P mnemonic ∧
    ∃ w : WalletData, w.ID = id ∧ w.Name = name ∧ w.Address = address ∧
      jsonString w.ID = id ∧ jsonString w.Name = name ∧
      (CreateWallet P e d name password).2.walletsJson =
        .json { Wallets := (loadWalletsStore e.load d).1.Wallets ++ [w], ActiveWalletID := id } ∧
      ∀ e2 : LoadEnv,
        (GetWallets e2 (CreateWallet P e d name password).2).1 =
          .ok (((loadWalletsStore e.load d).1.Wallets ++ [w]).map walletEntry, id) ∧
        walletEntry w ∈ ((loadWalletsStore e.load d).1.Wallets ++ [w]).map walletEntry ∧
        (walletEntry w).lookup "id" = some (.str id) ∧
        (walletEntry w).lookup "name" = some (.str name) := by
  obtain ⟨hr, hdisk⟩ := CreateWallet_ok P e d name password _ hok
  simp only [Prod.mk.injEq] at hr
  obtain ⟨hid, haddr, hm⟩ := hr
  subst hid haddr hm
  refine ⟨rfl, newWalletData P e name (P.newMnemonic e.entropy) password, rfl, rfl, rfl,
    jsonString_valid _ (hexEncodeToString_valid e.idBytes), jsonString_valid name hname, ?_, ?_⟩
  · rw [hdisk]; rfl
  · intro e2
    refine ⟨?_, ?_, ?_, ?_⟩
    · rw [GetWallets_json e2 _ (storeWithNew P e d name (P.newMnemonic e.entropy) password)
        (by rw [hdisk])]
      rfl
    · exact List.mem_map_of_mem _ (by simp)
    · simp [walletEntry, List.lookup, newWalletData]
    · simp [walletEntry, List.lookup, newWalletData]

/-- Witness of C5 on the small instance: "alice" is created in a store that
already holds one record. -/
theorem CreateWallet_appends_active_witness :
    utf8ValidString alice = true ∧
    (CreateWallet toy demoEnv oneWalletDisk alice secret1).2.walletsJson =
      .json { Wallets := [carolWallet, newWalletData toy demoEnv alice demoEntropy secret1],
              ActiveWalletID := generateWalletID [10, 11] } ∧
    deriveAddress toy demoEntropy = deriveAddress toy demoEntropy ∧
    ∃ w : WalletData, w.ID = generateWalletID [10, 11] ∧ w.Name = alice ∧
      w.Address = deriveAddress toy demoEntropy ∧
      jsonString w.ID = generateWalletID [10, 11] ∧ jsonString w.Name = alice ∧
      (CreateWallet toy demoEnv oneWalletDisk alice secret1).2.walletsJson =
        .json { Wallets := (loadWalletsStore demoEnv.load oneWalletDisk).1.Wallets ++ [w],
                ActiveWalletID := generateWalletID [10, 11] } ∧
      ∀ e2 : LoadEnv,
        (GetWallets e2 (CreateWallet toy demoEnv oneWalletDisk alice secret1).2).1 =
          .ok (((loadWalletsStore demoEnv.load oneWalletDisk).1.Wallets ++ [w]).map walletEntry,
            generateWalletID [10, 11]) ∧
        walletEntry w ∈
          ((loadWalletsStore demoEnv.load oneWalletDisk).1.Wallets ++ [w]).map walletEntry ∧
        (walletEntry w).lookup "id" = some (.str (generateWalletID [10, 11])) ∧
        (walletEntry w).lookup "name" = some (.str alice) :=
  ⟨by decide, by decide,
    CreateWallet_appends_active toy demoEnv oneWalletDisk alice secret1 (generateWalletID [10, 11])
      (deriveAddress toy demoEntropy) demoEntropy (by decide) (by decide)⟩

theorem SetActiveWallet_eq (e : OpEnv) (d : Disk) (walletID : GoString) :
    SetActiveWallet e d walletID =
      if (loadWalletsStore e.load d).1.Wallets.any (fun w => decide (w.ID = walletID)) = true then
        saveWalletsStore e.write
          { Wallets := (loadWalletsStore e.load d).1.Wallets, ActiveWalletID := walletID }
          (loadWalletsStore e.load d).2.2
      else (some .carteiraNaoEncontrada, (loadWalletsStore e.load d).2.2) := by
  simp only [SetActiveWallet, loadWalletsStore_err]
  by_cases h : (loadWalletsStore e.load d).1.Wallets.any (fun w => decide (w.ID = walletID)) = true
  · simp [h]
  · simp [h]

theorem saveWalletsStore_err (write : WriteOutcome) (store : WalletsStore) (d : Disk) :
    (saveWalletsStore write store d).1 = none ∨
      (saveWalletsStore write store d).1 = some .writeFile := by
  cases write <;> simp [saveWalletsStore]

theorem saveWalletsStore_ok (write : WriteOutcome) (store : WalletsStore) (d : Disk)
    (h : (saveWalletsStore write store d).1 = none) :
    write = .ok ∧ (saveWalletsStore write store d).2 = { d with walletsJson := .json store } := by
  cases write <;> simp [saveWalletsStore] at h ⊢

theorem SetActiveWallet_ok (e : OpEnv) (d : Disk) (walletID : GoString)
    (h : (SetActiveWallet e d walletID).1 = none) :
    (SetActiveWallet e d walletID).2 =
      { (loadWalletsStore e.load d).2.2 with
        walletsJson := .json { Wallets := (loadWalletsStore e.load d).1.Wallets,
                               ActiveWalletID := walletID } } ∧
    ∃ w ∈ (loadWalletsStore e.load d).1.Wallets, w.ID = walletID := by
  rw [SetActiveWallet_eq] at h ⊢
  by_cases hany : (loadWalletsStore e.load d).1.Wallets.any
      (fun w => decide (w.ID = walletID)) = true
  · rw [if_pos hany] at h ⊢
    exact ⟨(saveWalletsStore_ok _ _ _ h).2, by simpa [List.any_eq_true] using hany⟩
  · simp [hany] at h

/-- C6: `SetActiveWallet id` fails with "carteira não encontrada" exactly when
no record of the loaded store has that id; that failing call writes nothing (the
files are as the load left them, and as they were before the call unless the
load migrated the legacy file); a succeeding call leaves a store file with the
same records and active id `id`, and the call succeeds whenever the id is
present and the write goes through. -/
theorem SetActiveWallet_spec (e : OpEnv) (d : Disk) (walletID : GoString) :
    ((SetActiveWallet e d walletID).1 = some .carteiraNaoEncontrada ↔
      ∀ w ∈ (loadWalletsStore e.load d).1.Wallets, w.ID ≠ walletID) ∧
    ((SetActiveWallet e d walletID).1 = some .carteiraNaoEncontrada →
      (SetActiveWallet e d walletID).2 = (loadWalletsStore e.load d).2.2 ∧
      (legacyPending d = false → (SetActiveWallet e d walletID).2 = d)) ∧
    ((SetActiveWallet e d walletID).1 = none →
      (SetActiveWallet e d walletID).2 =
        { (loadWalletsStore e.load d).2.2 with
          walletsJson := .json { Wallets := (loadWalletsStore e.load d).1.Wallets,
                                 ActiveWalletID := walletID } }) ∧
    ((∃ w ∈ (loadWalletsStore e.load d).1.Wallets, w.ID = walletID) → e.write = .ok →
      (SetActiveWallet e d walletID).1 = none) := by
  have hiff : (SetActiveWallet e d walletID).1 = some .carteiraNaoEncontrada ↔
      ∀ w ∈ (loadWalletsStore e.load d).1.Wallets, w.ID ≠ walletID := by
    rw [SetActiveWallet_eq]
    by_cases h : (loadWalletsStore e.load d).1.Wallets.any
        (fun w => decide (w.ID = walletID)) = true
    · have hex : ∃ w ∈ (loadWalletsStore e.load d).1.Wallets, w.ID = walletID := by
        simpa [List.any_eq_true] using h
      obtain ⟨w, hw, hid⟩ := hex
      rw [if_pos h]
      constructor
      · intro h1
        rcases saveWalletsStore_err e.write
          { Wallets := (loadWalletsStore e.load d).1.Wallets, ActiveWalletID := walletID }
          (loadWalletsStore e.load d).2.2 with h2 | h2
        · rw [h2] at h1; cases h1
        · rw [h2] at h1; cases h1
      · intro hall
        exact absurd hid (hall w hw)
    · have hall : ∀ w ∈ (loadWalletsStore e.load d).1.Wallets, w.ID ≠ walletID := by
        simpa [List.any_eq_true] using h
      rw [if_neg h]
      exact ⟨fun _ => hall, fun _ => rfl⟩
  refine ⟨hiff, ?_, fun h => (SetActiveWallet_ok e d walletID h).1, ?_⟩
  · intro hnf
    have hall := hiff.1 hnf
    have hany : ¬ (loadWalletsStore e.load d).1.Wallets.any
        (fun w => decide (w.ID = walletID)) = true := by
      simpa [List.any_eq_true] using hall
    rw [SetActiveWallet_eq, if_neg hany]
    exact ⟨rfl, fun hp => loadWalletsStore_disk e.load d hp⟩
  · intro hex hw
    have hany : (loadWalletsStore e.load d).1.Wallets.any
        (fun w => decide (w.ID = walletID)) = true := by
      simpa [List.any_eq_true] using hex
    rw [SetActiveWallet_eq, if_pos hany, hw]
    rfl

/-- An evaluation of `SetActiveWallet` for C6: an unknown id on the two-record
store fails and leaves the files alone; the id of the second record succeeds and
becomes the active id. -/
theorem SetActiveWallet_spec_witness :
    SetActiveWallet demoOpEnv twoWalletDisk [120] = (some .carteiraNaoEncontrada, twoWalletDisk) ∧
    SetActiveWallet demoOpEnv twoWalletDisk [100, 50] =
      (none, { walletsJson := .json { Wallets := [carolWallet, daveWallet],
                                      ActiveWalletID := [100, 50] },
               walletJson := .missing }) ∧
    ((SetActiveWallet demoOpEnv twoWalletDisk [120]).1 = some .carteiraNaoEncontrada ↔
      ∀ w ∈ (loadWalletsStore demoOpEnv.load twoWalletDisk).1.Wallets, w.ID ≠ [120]) :=
  ⟨by decide, by decide, (SetActiveWallet_spec demoOpEnv twoWalletDisk [120]).1⟩

theorem find_first (active : GoString) (pre post : List WalletData) (w : WalletData)
    (hw : w.ID = active) (hpre : ∀ x ∈ pre, x.ID ≠ active) :
    (pre ++ w :: post).find? (fun x => decide (x.ID = active)) = some w := by
  induction pre with
  | nil => simp [hw]
  | cons x xs ih =>
    have hx : x.ID ≠ active := hpre x (by simp)
    simp only [List.cons_append, List.find?, hx, decide_False]
    exact ih (fun y hy => hpre y (by simp [hy]))

theorem find_none (active : GoString) (ws : List WalletData)
    (h : ∀ x ∈ ws, x.ID ≠ active) : ws.find? (fun x => decide (x.ID = active)) = none := by
  simpa [List.find?_eq_none] using h

/-- C7: `GetWalletInfo` fails exactly when the loaded store has no records, and
then with "nenhuma carteira encontrada"; otherwise it returns the address and
name of the first record whose id is the active id, and of the first record of
the store when no record has the active id. -/
theorem GetWalletInfo_spec (e : LoadEnv) (d : Disk) :
    ((∃ err, (GetWalletInfo e d).1 = .error err) ↔ (loadWalletsStore e d).1.Wallets = []) ∧
    ((GetWalletInfo e d).1 = .error .nenhumaCarteiraEncontrada ↔
      (loadWalletsStore e d).1.Wallets = []) ∧
    (∀ (pre post : List WalletData) (w : WalletData),
      (loadWalletsStore e d).1.Wallets = pre ++ w :: post →
      w.ID = (loadWalletsStore e d).1.ActiveWalletID →
      (∀ x ∈ pre, x.ID ≠ (loadWalletsStore e d).1.ActiveWalletID) →
      (GetWalletInfo e d).1 = .ok (w.Address, w.Name)) ∧
    (∀ (w0 : WalletData) (rest : List WalletData),
      (loadWalletsStore e d).1.Wallets = w0 :: rest →
      (∀ x ∈ (loadWalletsStore e d).1.Wallets, x.ID ≠ (loadWalletsStore e d).1.ActiveWalletID) →
      (GetWalletInfo e d).1 = .ok (w0.Address, w0.Name)) := by
  have hfirst : ∀ (pre post : List WalletData) (w : WalletData),
      (loadWalletsStore e d).1.Wallets = pre ++ w :: post →
      w.ID = (loadWalletsStore e d).1.ActiveWalletID →
      (∀ x ∈ pre, x.ID ≠ (loadWalletsStore e d).1.ActiveWalletID) →
      (GetWalletInfo e d).1 = .ok (w.Address, w.Name) := by
    intro pre post w hws hw hpre
    simp only [GetWalletInfo, loadWalletsStore_err, hws,
      find_first _ pre post w hw hpre]
    simp
  have hfallback : ∀ (w0 : WalletData) (rest : List WalletData),
      (loadWalletsStore e d).1.Wallets = w0 :: rest →
      (∀ x ∈ (loadWalletsStore e d).1.Wallets, x.ID ≠ (loadWalletsStore e d).1.ActiveWalletID) →
      (GetWalletInfo e d).1 = .ok (w0.Address, w0.Name) := by
    intro w0 rest hws hall
    have hnone := find_none _ _ hall
    simp only [GetWalletInfo, loadWalletsStore_err, hnone]
    simp [hws]
  have hempty : (loadWalletsStore e d).1.Wallets = [] →
      (GetWalletInfo e d).1 = .error .nenhumaCarteiraEncontrada := by
    intro h
    simp [GetWalletInfo, h]
  have hok : (loadWalletsStore e d).1.Wallets ≠ [] → ∃ r, (GetWalletInfo e d).1 = .ok r := by
    intro hne
    cases hws : (loadWalletsStore e d).1.Wallets with
    | nil => exact absurd hws hne
    | cons w0 rest =>
      cases hfind : (w0 :: rest).find?
          (fun w => decide (w.ID = (loadWalletsStore e d).1.ActiveWalletID)) with
      | none =>
        refine ⟨(w0.Address, w0.Name), ?_⟩
        simp only [GetWalletInfo, loadWalletsStore_err, hws, hfind]
        simp
      | some w =>
        refine ⟨(w.Address, w.Name), ?_⟩
        simp only [GetWalletInfo, loadWalletsStore_err, hws, hfind]
        simp
  refine ⟨⟨?_, fun h => ⟨_, hempty h⟩⟩, ⟨?_, hempty⟩, hfirst, hfallback⟩
  · rintro ⟨err, herr⟩
    by_contra hne
    obtain ⟨r, hr⟩ := hok hne
    rw [hr] at herr
    cases herr
  · intro herr
    by_contra hne
    obtain ⟨r, hr⟩ := hok hne
    rw [hr] at herr
    cases herr

/-- An evaluation of `GetWalletInfo` for C7: no files give the error; a stale
active id falls back to the first record; an active id names its record. -/
theorem GetWalletInfo_spec_witness :
    (GetWalletInfo demoLoadEnv emptyDisk).1 = .error .nenhumaCarteiraEncontrada ∧
    (GetWalletInfo demoLoadEnv staleActiveDisk).1 = .ok (carolWallet.Address, carolWallet.Name) ∧
    (GetWalletInfo demoLoadEnv
      { walletsJson := .json { Wallets := [carolWallet, daveWallet], ActiveWalletID := [100, 50] },
        walletJson := .missing }).1 = .ok (daveWallet.Address, daveWallet.Name) :=
  ⟨by decide,
    (GetWalletInfo_spec demoLoadEnv staleActiveDisk).2.2.2 carolWallet [daveWallet] (by decide)
      (by decide),
    by decide⟩

theorem deleteLoop_eq (walletID : GoString) (ws : List WalletData)
    (acc : List WalletData × Bool) :
    deleteLoop walletID ws acc =
      (acc.1 ++ ws.filter (fun w => decide (w.ID ≠ walletID)),
        acc.2 || ws.any (fun w => decide (w.ID = walletID))) := by
  induction ws generalizing acc with
  | nil => simp [deleteLoop]
  | cons w ws ih =>
    by_cases h : w.ID = walletID
    · simp [deleteLoop, h, ih]
    · simp [deleteLoop, h, ih]

theorem DeleteWallet_eq (s : Service) (e : OpEnv) (d : Disk) (walletID : GoString) :
    DeleteWallet s e d walletID =
      if isNodeRunning s = true then (some .pareONode, d)
      else if (loadWalletsStore e.load d).1.Wallets.any (fun w => decide (w.ID = walletID)) = true
      then saveWalletsStore e.write (storeAfterDelete (loadWalletsStore e.load d).1 walletID)
        (loadWalletsStore e.load d).2.2
      else (some .carteiraNaoEncontrada, (loadWalletsStore e.load d).2.2) := by
  simp only [DeleteWallet, loadWalletsStore_err, deleteLoop_eq, storeAfterDelete]
  by_cases hrun : isNodeRunning s = true
  · simp [hrun]
  · by_cases hany : (loadWalletsStore e.load d).1.Wallets.any
        (fun w => decide (w.ID = walletID)) = true
    · simp only [hrun, hany, if_false, List.nil_append, Bool.false_or, not_true_eq_false, if_true]
      by_cases hact : (loadWalletsStore e.load d).1.ActiveWalletID = walletID
      · simp only [hact, if_true]
        cases List.filter (fun w => decide (w.ID ≠ walletID))
          (loadWalletsStore e.load d).1.Wallets <;> rfl
      · simp only [hact, if_false]
    · simp [hrun, hany]

/-- C8: while the process handle is live, `DeleteWallet` fails with "pare o node
antes de remover a carteira" for every id and leaves every file as it was. -/
theorem DeleteWallet_running (s : Service) (e : OpEnv) (d : Disk) (walletID : GoString)
    (hrun : isNodeRunning s = true) :
    DeleteWallet s e d walletID = (some .pareONode, d) := by
  simp [DeleteWallet, hrun]

/-- Witness of C8: with a started process, deleting the id of a stored record
and deleting an unknown id both fail the same way. -/
theorem DeleteWallet_running_witness :
    isNodeRunning runningService = true ∧
    DeleteWallet runningService demoOpEnv twoWalletDisk [99, 49] = (some .pareONode, twoWalletDisk) ∧
    DeleteWallet runningService demoOpEnv twoWalletDisk [120] = (some .pareONode, twoWalletDisk) :=
  ⟨by decide, DeleteWallet_running runningService demoOpEnv twoWalletDisk [99, 49] (by decide),
    by decide⟩

/-- C9: with no live process handle, `DeleteWallet id` fails with "carteira não
encontrada" and writes nothing when no record of the loaded store has that id;
otherwise it saves the store whose records are the loaded records with another
id, in their order, and whose active id is the id of the first remaining record
if `id` was active and records remain, empty if `id` was active and none
remains, and the previous active id if `id` was not active. -/
theorem DeleteWallet_stopped_spec (s : Service) (e : OpEnv) (d : Disk) (walletID : GoString)
    (hstop : isNodeRunning s = false) :
    ((∀ w ∈ (loadWalletsStore e.load d).1.Wallets, w.ID ≠ walletID) →
      DeleteWallet s e d walletID =
        (some .carteiraNaoEncontrada, (loadWalletsStore e.load d).2.2) ∧
      (legacyPending d = false → (DeleteWallet s e d walletID).2 = d)) ∧
    ((∃ w ∈ (loadWalletsStore e.load d).1.Wallets, w.ID = walletID) →
      ∃ newActive : GoString,
        DeleteWallet s e d walletID =
          saveWalletsStore e.write
            { Wallets := (loadWalletsStore e.load d).1.Wallets.filter
                (fun w => decide (w.ID ≠ walletID)),
              ActiveWalletID := newActive }
            (loadWalletsStore e.load d).2.2 ∧
        (e.write = .ok →
          DeleteWallet s e d walletID =
            (none, { (loadWalletsStore e.load d).2.2 with
              walletsJson := .json
                { Wallets := (loadWalletsStore e.load d).1.Wallets.filter
                    (fun w => decide (w.ID ≠ walletID)),
                  ActiveWalletID := newActive } })) ∧
        ((loadWalletsStore e.load d).1.ActiveWalletID = walletID →
          ∀ w0 rest, (loadWalletsStore e.load d).1.Wallets.filter
              (fun w => decide (w.ID ≠ walletID)) = w0 :: rest → newActive = w0.ID) ∧
        ((loadWalletsStore e.load d).1.ActiveWalletID = walletID →
          (loadWalletsStore e.load d).1.Wallets.filter
              (fun w => decide (w.ID ≠ walletID)) = [] → newActive = []) ∧
        ((loadWalletsStore e.load d).1.ActiveWalletID ≠ walletID →
          newActive = (loadWalletsStore e.load d).1.ActiveWalletID)) := by
  rw [DeleteWallet_eq, if_neg (by simp [hstop])]
  constructor
  · intro hall
    have hany : ¬ (loadWalletsStore e.load d).1.Wallets.any
        (fun w => decide (w.ID = walletID)) = true := by
      simpa [List.any_eq_true] using hall
    rw [if_neg hany]
    exact ⟨rfl, fun hp => loadWalletsStore_disk e.load d hp⟩
  · intro hex
    have hany : (loadWalletsStore e.load d).1.Wallets.any
        (fun w => decide (w.ID = walletID)) = true := by
      simpa [List.any_eq_true] using hex
    rw [if_pos hany]
    refine ⟨(storeAfterDelete (loadWalletsStore e.load d).1 walletID).ActiveWalletID, rfl, ?_, ?_,
      ?_, ?_⟩
    · intro hw
      simp [saveWalletsStore, hw, storeAfterDelete]
    · intro hact w0 rest hrem
      simp only [storeAfterDelete, hact, if_true, hrem]
    · intro hact hrem
      simp only [storeAfterDelete, hact, if_true, hrem]
    · intro hact
      simp [storeAfterDelete, hact]

/-- Witness of C9: with no process, deleting the active first record of the
two-record store leaves the second record, now active. -/
theorem DeleteWallet_stopped_spec_witness :
    isNodeRunning stoppedService = false ∧
    DeleteWallet stoppedService demoOpEnv twoWalletDisk [99, 49] =
      (none, { walletsJson := .json { Wallets := [daveWallet], ActiveWalletID := [100, 50] },
               walletJson := .missing }) ∧
    DeleteWallet stoppedService demoOpEnv twoWalletDisk [120] =
      (some .carteiraNaoEncontrada, twoWalletDisk) ∧
    DeleteWallet stoppedService demoOpEnv oneWalletDisk [99, 49] =
      (none, { walletsJson := .json { Wallets := [], ActiveWalletID := [] },
               walletJson := .missing }) ∧
    DeleteWallet stoppedService demoOpEnv twoWalletDisk [120] =
      (some .carteiraNaoEncontrada, (loadWalletsStore demoOpEnv.load twoWalletDisk).2.2) :=
  ⟨by decide, by decide, by decide, by decide,
    ((DeleteWallet_stopped_spec stoppedService demoOpEnv twoWalletDisk [120] (by decide)).1
      (by decide)).1⟩

theorem storeWithNew_inv (P : Primitives) (e : WalletEnv) (d : Disk)
    (name mnemonic password : GoString) : ActiveInv (storeWithNew P e d name mnemonic password) :=
  fun _ => ⟨newWalletData P e name mnemonic password, by simp [storeWithNew], rfl⟩

theorem storeAfterDelete_inv_of_active (st : WalletsStore) (walletID : GoString)
    (hact : st.ActiveWalletID = walletID) : ActiveInv (storeAfterDelete st walletID) := by
  intro hne
  simp only [storeAfterDelete, hact, if_true] at hne ⊢
  cases hrem : List.filter (fun w => decide (w.ID ≠ walletID)) st.Wallets with
  | nil => exact absurd hrem hne
  | cons w0 rest => exact ⟨w0, by simp, rfl⟩

theorem storeAfterDelete_inv (st : WalletsStore) (walletID : GoString) (hinv : ActiveInv st) :
    ActiveInv (storeAfterDelete st walletID) := by
  by_cases hact : st.ActiveWalletID = walletID
  · exact storeAfterDelete_inv_of_active st walletID hact
  · intro hne
    have hst : st.Wallets ≠ [] := by
      intro hnil
      apply hne
      simp [storeAfterDelete, hnil]
    obtain ⟨w, hw, hid⟩ := hinv hst
    refine ⟨w, ?_, ?_⟩
    · simp only [storeAfterDelete, List.mem_filter, decide_eq_true_eq]
      exact ⟨hw, by rw [hid]; exact hact⟩
    · simp [storeAfterDelete, hact, hid]

theorem DeleteWallet_ok (s : Service) (e : OpEnv) (d : Disk) (walletID : GoString)
    (h : (DeleteWallet s e d walletID).1 = none) :
    (DeleteWallet s e d walletID).2.walletsJson =
      .json (storeAfterDelete (loadWalletsStore e.load d).1 walletID) := by
  rw [DeleteWallet_eq] at h ⊢
  by_cases hrun : isNodeRunning s = true
  · simp [hrun] at h
  · by_cases hany : (loadWalletsStore e.load d).1.Wallets.any
        (fun w => decide (w.ID = walletID)) = true
    · rw [if_neg hrun, if_pos hany] at h ⊢
      rw [(saveWalletsStore_ok _ _ _ h).2]
    · simp [hrun, hany] at h

/-- C10: the active-wallet invariant (a non-empty store has an active id that
names one of its records) carries over from the loaded store to the store file
left by every successful `CreateWallet`, `ImportWallet`, `SetActiveWallet` and
`DeleteWallet`; and after a successful `DeleteWallet` of the active wallet the
saved store satisfies it whatever the loaded store was. -/
theorem ActiveInv_preserved (P : Primitives) :
    (∀ (e : WalletEnv) (d : Disk) (name password : GoString) (r : GoString × GoString × GoString),
      ActiveInv (loadWalletsStore e.load d).1 →
      (CreateWallet P e d name password).1 = .ok r →
      ∃ st, (CreateWallet P e d name password).2.walletsJson = .json st ∧ ActiveInv st) ∧
    (∀ (e : WalletEnv) (d : Disk) (name mnemonic password : GoString) (r : GoString × GoString),
      ActiveInv (loadWalletsStore e.load d).1 →
      (ImportWallet P e d name mnemonic password).1 = .ok r →
      ∃ st, (ImportWallet P e d name mnemonic password).2.walletsJson = .json st ∧ ActiveInv st) ∧
    (∀ (e : OpEnv) (d : Disk) (walletID : GoString),
      ActiveInv (loadWalletsStore e.load d).1 →
      (SetActiveWallet e d walletID).1 = none →
      ∃ st, (SetActiveWallet e d walletID).2.walletsJson = .json st ∧ ActiveInv st) ∧
    (∀ (s : Service) (e : OpEnv) (d : Disk) (walletID : GoString),
      ActiveInv (loadWalletsStore e.load d).1 →
      (DeleteWallet s e d walletID).1 = none →
      ∃ st, (DeleteWallet s e d walletID).2.walletsJson = .json st ∧ ActiveInv st) ∧
    (∀ (s : Service) (e : OpEnv) (d : Disk) (walletID : GoString),
      (loadWalletsStore e.load d).1.ActiveWalletID = walletID →
      (DeleteWallet s e d walletID).1 = none →
      ∃ st, (DeleteWallet s e d walletID).2.walletsJson = .json st ∧
        st.Wallets = (loadWalletsStore e.load d).1.Wallets.filter
          (fun w => decide (w.ID ≠ walletID)) ∧
        (st.Wallets ≠ [] → ∃ w ∈ st.Wallets, w.ID = st.ActiveWalletID)) := by
  refine ⟨?_, ?_, ?_, ?_, ?_⟩
  · intro e d name password r _ hok
    obtain ⟨-, hdisk⟩ := CreateWallet_ok P e d name password r hok
    exact ⟨_, by rw [hdisk], storeWithNew_inv P e d name _ password⟩
  · intro e d name mnemonic password r _ hok
    obtain ⟨-, hdisk⟩ := ImportWallet_ok P e d name mnemonic password r hok
    exact ⟨_, by rw [hdisk], storeWithNew_inv P e d name mnemonic password⟩
  · intro e d walletID _ hok
    obtain ⟨hdisk, hfound⟩ := SetActiveWallet_ok e d walletID hok
    exact ⟨_, by rw [hdisk], fun _ => hfound⟩
  · intro s e d walletID hinv hok
    exact ⟨_, DeleteWallet_ok s e d walletID hok, storeAfterDelete_inv _ walletID hinv⟩
  · intro s e d walletID hact hok
    exact ⟨_, DeleteWallet_ok s e d walletID hok, rfl,
      storeAfterDelete_inv_of_active _ walletID hact⟩

/-- An evaluation for C10: deleting the active first record of the two-record
store leaves a store whose active id names the remaining record. -/
theorem ActiveInv_preserved_witness :
    ActiveInv (loadWalletsStore demoOpEnv.load twoWalletDisk).1 ∧
    (DeleteWallet stoppedService demoOpEnv twoWalletDisk [99, 49]).1 = none ∧
    (DeleteWallet stoppedService demoOpEnv twoWalletDisk [99, 49]).2.walletsJson =
      .json { Wallets := [daveWallet], ActiveWalletID := daveWallet.ID } ∧
    ∃ st, (DeleteWallet stoppedService demoOpEnv twoWalletDisk [99, 49]).2.walletsJson = .json st ∧
      ActiveInv st :=
  ⟨by decide, by decide, by decide,
    (ActiveInv_preserved toy).2.2.2.1 stoppedService demoOpEnv twoWalletDisk [99, 49] (by decide)
      (by decide)⟩

/-! ## Listing and migration: the claims -/

/-- C11: `GetWallets` never fails; it returns one entry per record of the loaded
store, in store order, each with exactly the keys id, name, address and
createdAt holding the values of that record (so neither the encrypted mnemonic
nor the salt), together with the active id of the store; when the store file
parses, that store is the file content and the files stay as they were. -/
theorem GetWallets_spec (e : LoadEnv) (d : Disk) :
    (GetWallets e d).1 =
      .ok ((loadWalletsStore e d).1.Wallets.map walletEntry,
        (loadWalletsStore e d).1.ActiveWalletID) ∧
    ((loadWalletsStore e d).1.Wallets.map walletEntry).length =
      (loadWalletsStore e d).1.Wallets.length ∧
    (∀ (i : Nat) (h : i < (loadWalletsStore e d).1.Wallets.length),
      ((loadWalletsStore e d).1.Wallets.map walletEntry)[i]? =
        some (walletEntry ((loadWalletsStore e d).1.Wallets.get ⟨i, h⟩))) ∧
    (∀ w : WalletData,
      (walletEntry w).map Prod.fst = ["id", "name", "address", "createdAt"] ∧
      (walletEntry w).lookup "id" = some (.str w.ID) ∧
      (walletEntry w).lookup "name" = some (.str w.Name) ∧
      (walletEntry w).lookup "address" = some (.str w.Address) ∧
      (walletEntry w).lookup "createdAt" = some (.int w.CreatedAt) ∧
      (walletEntry w).lookup "encryptedMnemonic" = none ∧
      (walletEntry w).lookup "salt" = none ∧
      (∀ v ∈ (walletEntry w).map Prod.snd,
        v = .str w.ID ∨ v = .str w.Name ∨ v = .str w.Address ∨ v = .int w.CreatedAt)) ∧
    (∀ st : WalletsStore, d.walletsJson = .json st →
      GetWallets e d = (.ok (st.Wallets.map walletEntry, st.ActiveWalletID), d)) := by
  refine ⟨by simp [GetWallets, loadWalletsStore_err], by simp, ?_, ?_, ?_⟩
  · intro i h
    simp [List.getElem?_map, List.getElem?_eq_getElem h]
  · intro w
    refine ⟨rfl, ?_, ?_, ?_, ?_, ?_, ?_, ?_⟩ <;> simp [walletEntry, List.lookup]
  · intro st hst
    exact GetWallets_json e d st hst

/-- An evaluation of `GetWallets` for C11 on the two-record store. -/
theorem GetWallets_spec_witness :
    GetWallets demoLoadEnv twoWalletDisk =
      (.ok ([[("id", .str [99, 49]), ("name", .str carol), ("address", .str [116, 49, 99]),
              ("createdAt", .int 1600000000)],
             [("id", .str [100, 50]), ("name", .str [100, 97, 118, 101]),
              ("address", .str [116, 49, 100]), ("createdAt", .int 1600000500)]],
            [99, 49]), twoWalletDisk) ∧
    (GetWallets demoLoadEnv twoWalletDisk).1 =
      .ok ((loadWalletsStore demoLoadEnv twoWalletDisk).1.Wallets.map walletEntry,
        (loadWalletsStore demoLoadEnv twoWalletDisk).1.ActiveWalletID) :=
  ⟨by decide, (GetWallets_spec demoLoadEnv twoWalletDisk).1⟩

theorem loadWalletsStore_migrate_eq (e : LoadEnv) (d : Disk) (oldWallet : WalletData)
    (hstore : d.walletsJson = .missing) (hold : d.walletJson = .json oldWallet)
    (haddr : oldWallet.Address ≠ []) :
    loadWalletsStore e d =
      ({ Wallets := [{ oldWallet with ID := generateWalletID e.idBytes }],
         ActiveWalletID := generateWalletID e.idBytes },
       none,
       removeWalletJson e.removeOk
         (saveWalletsStore e.write
           { Wallets := [{ oldWallet with ID := generateWalletID e.idBytes }],
             ActiveWalletID := generateWalletID e.idBytes } d).2) := by
  simp [loadWalletsStore, hstore, hold, haddr]

theorem legacyPending_iff (d : Disk) :
    legacyPending d = true ↔
      d.walletsJson = .missing ∧ ∃ oldWallet, d.walletJson = .json oldWallet ∧
        oldWallet.Address ≠ [] := by
  unfold legacyPending
  split
  · rename_i _ oldWallet hstore hold
    simp [hstore, hold]
  · rename_i hno
    constructor
    · intro h; cases h
    · rintro ⟨hstore, oldWallet, hold, -⟩
      exact absurd hold (hno oldWallet hstore)

/-- C12: when the store file cannot be read and the legacy file parses to a
record with a non-empty address, `loadWalletsStore` returns, with a nil error,
the store whose only record is the legacy record with its id replaced by the
generated id (address, name, encrypted mnemonic, salt and creation time kept)
and whose active id is that id; it saves that store and then removes the legacy
file, so that when both calls succeed the store file holds that store and the
legacy file is gone. -/
theorem loadWalletsStore_migrates (e : LoadEnv) (d : Disk) (oldWallet : WalletData)
    (hstore : d.walletsJson = .missing) (hold : d.walletJson = .json oldWallet)
    (haddr : oldWallet.Address ≠ []) :
    ∃ migrated : WalletData,
      migrated.ID = generateWalletID e.idBytes ∧
      migrated.Address = oldWallet.Address ∧ migrated.Name = oldWallet.Name ∧
      migrated.EncryptedMnemonic = oldWallet.EncryptedMnemonic ∧
      migrated.Salt = oldWallet.Salt ∧ migrated.CreatedAt = oldWallet.CreatedAt ∧
      (loadWalletsStore e d).1 = { Wallets := [migrated], ActiveWalletID := migrated.ID } ∧
      (loadWalletsStore e d).2.1 = none ∧
      (loadWalletsStore e d).2.2 =
        removeWalletJson e.removeOk
          (saveWalletsStore e.write { Wallets := [migrated], ActiveWalletID := migrated.ID } d).2 ∧
      (e.write = .ok → e.removeOk = true →
        (loadWalletsStore e d).2.2 =
          { d with walletsJson := .json { Wallets := [migrated], ActiveWalletID := migrated.ID },
                   walletJson := .missing }) := by
  refine ⟨{ oldWallet with ID := generateWalletID e.idBytes }, rfl, rfl, rfl, rfl, rfl, rfl, ?_⟩
  rw [loadWalletsStore_migrate_eq e d oldWallet hstore hold haddr]
  refine ⟨rfl, rfl, rfl, fun hw hr => ?_⟩
  simp [hw, hr, saveWalletsStore, removeWalletJson]

/-- Witness of C12: the legacy file of "carol" is adopted under the generated
id `0102` (hex of the bytes 1, 2), the store file is written and the legacy file removed. -/
theorem loadWalletsStore_migrates_witness :
    loadWalletsStore demoLoadEnv legacyDisk =
      ({ Wallets := [{ carolWallet with ID := [48, 49, 48, 50] }],
         ActiveWalletID := [48, 49, 48, 50] }, none,
       { walletsJson := .json { Wallets := [{ carolWallet with ID := [48, 49, 48, 50] }],
                                ActiveWalletID := [48, 49, 48, 50] },
         walletJson := .missing }) ∧
    ∃ migrated : WalletData,
      migrated.ID = generateWalletID demoLoadEnv.idBytes ∧
      migrated.Address = carolWallet.Address ∧ migrated.Name = carolWallet.Name ∧
      migrated.EncryptedMnemonic = carolWallet.EncryptedMnemonic ∧
      migrated.Salt = carolWallet.Salt ∧ migrated.CreatedAt = carolWallet.CreatedAt ∧
      (loadWalletsStore demoLoadEnv legacyDisk).1 =
        { Wallets := [migrated], ActiveWalletID := migrated.ID } ∧
      (loadWalletsStore demoLoadEnv legacyDisk).2.1 = none ∧
      (loadWalletsStore demoLoadEnv legacyDisk).2.2 =
        removeWalletJson demoLoadEnv.removeOk
          (saveWalletsStore demoLoadEnv.write
            { Wallets := [migrated], ActiveWalletID := migrated.ID } legacyDisk).2 ∧
      (demoLoadEnv.write = .ok → demoLoadEnv.removeOk = true →
        (loadWalletsStore demoLoadEnv legacyDisk).2.2 =
          { legacyDisk with
            walletsJson := .json { Wallets := [migrated], ActiveWalletID := migrated.ID },
            walletJson := .missing }) :=
  ⟨by decide,
    loadWalletsStore_migrates demoLoadEnv legacyDisk carolWallet (by decide) (by decide)
      (by decide)⟩

theorem loadWalletsStore_after_write (e : LoadEnv) (d : Disk) (hpend : legacyPending d = true)
    (hwrite : e.write = .ok) :
    (loadWalletsStore e d).2.2.walletsJson = .json (loadWalletsStore e d).1 := by
  obtain ⟨hstore, oldWallet, hold, haddr⟩ := (legacyPending_iff d).1 hpend
  rw [loadWalletsStore_migrate_eq e d oldWallet hstore hold haddr]
  cases hr : e.removeOk <;> simp [hwrite, saveWalletsStore, removeWalletJson]

theorem loadsAfter_json (es : List LoadEnv) (d : Disk) (st : WalletsStore)
    (h : d.walletsJson = .json st) : loadsAfter es d = d := by
  induction es with
  | nil => rfl
  | cons e es ih =>
    simp only [loadsAfter, List.foldl_cons] at ih ⊢
    rw [loadWalletsStore_json e d st h]
    exact ih

/-- C13: after a `loadWalletsStore` call that migrated the legacy file and wrote
the store file, every later call, after any number of calls in between and
whatever the operating system would answer, returns the store the migrating
call returned (same record id, same active id) with a nil error and leaves
every file as the migrating call left it: no write, no removal, no second
migration. -/
theorem loadWalletsStore_migrates_once (e : LoadEnv) (d : Disk)
    (hpend : legacyPending d = true) (hwrite : e.write = .ok)
    (es : List LoadEnv) (e2 : LoadEnv) :
    loadsAfter es (loadWalletsStore e d).2.2 = (loadWalletsStore e d).2.2 ∧
    loadWalletsStore e2 (loadsAfter es (loadWalletsStore e d).2.2) =
      ((loadWalletsStore e d).1, none, (loadWalletsStore e d).2.2) ∧
    legacyPending (loadWalletsStore e d).2.2 = false := by
  have hjson := loadWalletsStore_after_write e d hpend hwrite
  have hsame := loadsAfter_json es _ _ hjson
  refine ⟨hsame, ?_, ?_⟩
  · rw [hsame, loadWalletsStore_json e2 _ _ hjson]
  · simp [legacyPending, hjson]

/-- Witness of C13: after the migration of the legacy file of "carol", two more
loads with other random bytes, the second one with a failing disk, still
return the record under the id `0102` and leave the files alone. -/
theorem loadWalletsStore_migrates_once_witness :
    legacyPending legacyDisk = true ∧
    loadWalletsStore { idBytes := [9, 9], write := .failedTruncated, removeOk := true }
        (loadsAfter [{ idBytes := [7], write := .ok, removeOk := true }]
          (loadWalletsStore demoLoadEnv legacyDisk).2.2) =
      ({ Wallets := [{ carolWallet with ID := [48, 49, 48, 50] }],
         ActiveWalletID := [48, 49, 48, 50] }, none,
       (loadWalletsStore demoLoadEnv legacyDisk).2.2) :=
  ⟨by decide,
    (loadWalletsStore_migrates_once demoLoadEnv legacyDisk (by decide) (by decide)
      [{ idBytes := [7], write := .ok, removeOk := true }]
      { idBytes := [9, 9], write := .failedTruncated, removeOk := true }).2.1⟩

/-! ## Lemmas: supervisor -/

theorem addLog_nodeCmd (timestamp msg : GoString) (s : Service) :
    (addLog timestamp msg s).nodeCmd = s.nodeCmd := by
  simp only [addLog]
  split <;> rfl

theorem isNodeRunning_addLog (timestamp msg : GoString) (s : Service) :
    isNodeRunning (addLog timestamp msg s) = isNodeRunning s := by
  simp [isNodeRunning, addLog_nodeCmd]

theorem StartNode_running (e : StartEnv) (d : Disk) (s : Service)
    (hrun : isNodeRunning s = true) : StartNode e d s = (some .nodeJaRodando, s) := by
  simp [StartNode, hrun]

theorem StartNode_launch (e : StartEnv) (d : Disk) (s : Service) (p : Process)
    (hstop : isNodeRunning s = false) (hlaunch : e.launch = some p) :
    (StartNode e d s).1 = none ∧ isNodeRunning (StartNode e d s).2 = true ∧
    handleProcess (StartNode e d s).2 = some p := by
  unfold StartNode
  rw [hstop]
  simp only [Bool.false_eq_true, if_false]
  cases hc : IsCosmovisorEnabled d <;>
    simp [startWithCosmovisor, hlaunch, isNodeRunning, handleProcess, addLog_nodeCmd]

theorem StartNode_ok_running (e : StartEnv) (d : Disk) (s : Service)
    (hok : (StartNode e d s).1 = none) : isNodeRunning (StartNode e d s).2 = true := by
  cases hrun : isNodeRunning s
  · cases hl : e.launch with
    | none =>
      unfold StartNode at hok
      rw [hrun] at hok
      simp only [Bool.false_eq_true, if_false] at hok
      cases hc : IsCosmovisorEnabled d <;> simp [startWithCosmovisor, hl, hc] at hok
    | some p => exact (StartNode_launch e d s p hrun hl).2.1
  · rw [StartNode_running e d s hrun] at hok
    cases hok

theorem StopNode_stopped (now : GoString) (s : Service) (hstop : isNodeRunning s = false) :
    StopNode now s = (some .nodeNaoRodando, s) := by
  simp [StopNode, hstop]

theorem StopNode_running (now : GoString) (s : Service) (hrun : isNodeRunning s = true) :
    StopNode now s = (none, addLog now msgStopped { s with nodeCmd := none }) := by
  simp [StopNode, hrun]

theorem step_start_running (e : StartEnv) (w : World) (hrun : isNodeRunning w.svc = true) :
    step w (.start e) = w := by
  simp [step, StartNode_running e w.disk w.svc hrun]

/-! ## Supervisor: the claims -/

/-- C14: with a live handle `StartNode` fails with "node já está rodando",
starts no process and changes nothing; from a stopped service a `StartNode`
whose launch succeeds returns nil and leaves a live handle, so that a second
`StartNode` then fails with "node já está rodando" and starts nothing: of the
two calls exactly the first succeeds. -/
theorem StartNode_exclusive (e : StartEnv) (w : World) :
    (isNodeRunning w.svc = true →
      StartNode e w.disk w.svc = (some .nodeJaRodando, w.svc) ∧ step w (.start e) = w) ∧
    (isNodeRunning w.svc = false → ∀ p, e.launch = some p →
      (StartNode e w.disk w.svc).1 = none ∧
      (step w (.start e)).alive = p :: w.alive ∧
      ∀ e2 : StartEnv,
        StartNode e2 w.disk (step w (.start e)).svc =
          (some .nodeJaRodando, (step w (.start e)).svc) ∧
        step (step w (.start e)) (.start e2) = step w (.start e)) := by
  constructor
  · intro hrun
    exact ⟨StartNode_running e w.disk w.svc hrun, step_start_running e w hrun⟩
  · intro hstop p hlaunch
    obtain ⟨hok, hrun, -⟩ := StartNode_launch e w.disk w.svc p hstop hlaunch
    have hstep : step w (.start e) =
        { w with svc := (StartNode e w.disk w.svc).2, alive := p :: w.alive,
                 watchers := { proc := p, wrapped := IsCosmovisorEnabled w.disk } :: w.watchers } := by
      simp [step, hok, hlaunch]
    refine ⟨hok, by rw [hstep], fun e2 => ?_⟩
    have hrun2 : isNodeRunning (step w (.start e)).svc = true := by rw [hstep]; exact hrun
    exact ⟨StartNode_running e2 _ _ hrun2, step_start_running e2 _ hrun2⟩

/-- Witness of C14: two `StartNode` calls on a new service; the first starts
process 1, the second is rejected and process 2 is never started. -/
theorem StartNode_exclusive_witness :
    (StartNode (launchEnv 1) emptyDisk (NewService [100])).1 = none ∧
    (StartNode (launchEnv 2) emptyDisk (StartNode (launchEnv 1) emptyDisk (NewService [100])).2).1 =
      some .nodeJaRodando ∧
    (run (initWorld [100] emptyDisk) [.start (launchEnv 1), .start (launchEnv 2)]).alive =
      [{ Pid := 1 }] ∧
    (StartNode (launchEnv 1) (initWorld [100] emptyDisk).disk (initWorld [100] emptyDisk).svc).1 =
      none :=
  ⟨by decide, by decide, by decide,
    ((StartNode_exclusive (launchEnv 1) (initWorld [100] emptyDisk)).2 (by decide) { Pid := 1 }
      (by decide)).1⟩

/-- C15: `StopNode` fails with "node não está rodando" exactly when there is no
live handle, and then changes nothing; otherwise it returns nil, kills the
process of the handle and clears the handle; in every case `isNodeRunning` is
false afterwards, in particular after a `StopNode` that follows a successful
`StartNode`. -/
theorem StopNode_spec (now : GoString) (w : World) :
    ((StopNode now w.svc).1 = some .nodeNaoRodando ↔ isNodeRunning w.svc = false) ∧
    (isNodeRunning w.svc = false →
      StopNode now w.svc = (some .nodeNaoRodando, w.svc) ∧ step w (.stop now) = w) ∧
    (isNodeRunning w.svc = true →
      (StopNode now w.svc).1 = none ∧ (StopNode now w.svc).2.nodeCmd = none ∧
      (step w (.stop now)).svc.nodeCmd = none ∧
      ∀ p, handleProcess w.svc = some p → p ∉ (step w (.stop now)).alive) ∧
    isNodeRunning (StopNode now w.svc).2 = false ∧
    (∀ (e : StartEnv) (d : Disk), (StartNode e d w.svc).1 = none →
      (StopNode now (StartNode e d w.svc).2).1 = none ∧
      (StopNode now (StartNode e d w.svc).2).2.nodeCmd = none) := by
  have hiff : (StopNode now w.svc).1 = some .nodeNaoRodando ↔ isNodeRunning w.svc = false := by
    cases hrun : isNodeRunning w.svc
    · simp [StopNode_stopped now w.svc hrun]
    · simp [StopNode_running now w.svc hrun]
  refine ⟨hiff, ?_, ?_, ?_, ?_⟩
  · intro hstop
    refine ⟨StopNode_stopped now w.svc hstop, ?_⟩
    simp only [step, StopNode_stopped now w.svc hstop]
  · intro hrun
    rw [StopNode_running now w.svc hrun]
    refine ⟨rfl, by simp [addLog_nodeCmd], ?_, ?_⟩
    · simp only [step, StopNode_running now w.svc hrun]
      cases handleProcess w.svc <;> simp [addLog_nodeCmd]
    · intro p hp
      simp [step, StopNode_running now w.svc hrun, hp]
  · cases hrun : isNodeRunning w.svc
    · rw [StopNode_stopped now w.svc hrun]; exact hrun
    · rw [StopNode_running now w.svc hrun, isNodeRunning_addLog]; rfl
  · intro e d hok
    have hrun := StartNode_ok_running e d w.svc hok
    rw [StopNode_running now _ hrun]
    exact ⟨rfl, by simp [addLog_nodeCmd]⟩

/-- An evaluation for C15: `StopNode` on a new service fails and changes
nothing; after a successful `StartNode` it kills process 1 and clears the handle. -/
theorem StopNode_spec_witness :
    StopNode noon (NewService [100]) = (some .nodeNaoRodando, NewService [100]) ∧
    (run (initWorld [100] emptyDisk) [.start (launchEnv 1), .stop noon]).alive = [] ∧
    (run (initWorld [100] emptyDisk) [.start (launchEnv 1), .stop noon]).svc.nodeCmd = none ∧
    isNodeRunning (StopNode noon (initWorld [100] emptyDisk).svc).2 = false :=
  ⟨by decide, by decide, by decide, (StopNode_spec noon (initWorld [100] emptyDisk)).2.2.2.1⟩

/-- C16 fails on the code: after start, stop, start, the monitor goroutine of
the first process clears the handle of the second, which is still alive; the
next `StartNode` is accepted and two launched processes are alive. -/
theorem supervisor_stale_watcher :
    (run (initWorld [100] emptyDisk) (staleWatcherTrace.take 3)).alive = [{ Pid := 2 }] ∧
    isNodeRunning (run (initWorld [100] emptyDisk) (staleWatcherTrace.take 3)).svc = true ∧
    (run (initWorld [100] emptyDisk) (staleWatcherTrace.take 4)).alive = [{ Pid := 2 }] ∧
    isNodeRunning (run (initWorld [100] emptyDisk) (staleWatcherTrace.take 4)).svc = false ∧
    ¬ Supervised (run (initWorld [100] emptyDisk) (staleWatcherTrace.take 4)) ∧
    (run (initWorld [100] emptyDisk) staleWatcherTrace).alive = [{ Pid := 3 }, { Pid := 2 }] ∧
    ¬ Supervised (run (initWorld [100] emptyDisk) staleWatcherTrace) := by
  decide

/-! ## Log buffer: lemmas and the claim -/

theorem addLog_logs (timestamp msg : GoString) (s : Service) (hmax : s.maxLogs = 1000) :
    (addLog timestamp msg s).logs =
      (s.logs ++ [logEntry timestamp msg]).drop (s.logs.length + 1 - 1000) ∧
    (addLog timestamp msg s).maxLogs = 1000 ∧
    (addLog timestamp msg s).dataDir = s.dataDir := by
  simp only [addLog, hmax, List.length_append, List.length_singleton]
  split
  · rename_i h
    refine ⟨?_, rfl, rfl⟩
    have h1 : ((↑(s.logs.length + 1) : Int) - 1000).toNat = s.logs.length + 1 - 1000 := by
      omega
    simp only [h1]
  · rename_i h
    refine ⟨?_, rfl, rfl⟩
    have h0 : s.logs.length + 1 - 1000 = 0 := by
      push_cast at h
      omega
    rw [h0]
    rfl

theorem addLogs_append (calls : List (GoString × GoString)) (c : GoString × GoString)
    (s : Service) : addLogs (calls ++ [c]) s = addLog c.1 c.2 (addLogs calls s) := by
  simp [addLogs, List.foldl_append]

theorem drop_window (entries : List GoString) (x : GoString) :
    ((entries.drop (entries.length - 1000)) ++ [x]).drop
        ((entries.drop (entries.length - 1000)).length + 1 - 1000) =
      (entries ++ [x]).drop (entries.length + 1 - 1000) := by
  by_cases h : entries.length < 1000
  · have h1 : entries.length - 1000 = 0 := by omega
    have h2 : entries.length + 1 - 1000 = 0 := by omega
    simp [h1, h2]
  · have hlen : (entries.drop (entries.length - 1000)).length = 1000 := by
      rw [List.length_drop]; omega
    have h2 : entries.length + 1 - 1000 = (entries.length - 1000) + 1 := by omega
    rw [hlen, h2]
    rw [List.drop_append_of_le_length (by rw [hlen]; omega),
      List.drop_append_of_le_length (by omega), List.drop_drop]

theorem addLogs_logs (dataDir : GoString) (calls : List (GoString × GoString)) :
    (addLogs calls (NewService dataDir)).logs =
      (calls.map (fun c => logEntry c.1 c.2)).drop (calls.length - 1000) ∧
    (addLogs calls (NewService dataDir)).maxLogs = 1000 := by
  induction calls using List.reverseRecOn with
  | nil => exact ⟨rfl, rfl⟩
  | append_singleton calls c ih =>
    obtain ⟨ihlogs, ihmax⟩ := ih
    rw [addLogs_append]
    obtain ⟨hlogs, hmax, -⟩ := addLog_logs c.1 c.2 (addLogs calls (NewService dataDir)) ihmax
    refine ⟨?_, hmax⟩
    rw [hlogs, ihlogs]
    have := drop_window (calls.map (fun c => logEntry c.1 c.2)) (logEntry c.1 c.2)
    simp only [List.length_map] at this
    simp only [List.map_append, List.map_cons, List.map_nil, List.length_append,
      List.length_singleton]
    exact this

theorem GetLogs_zero (s : Service) : GetLogs s 0 = s.logs := by
  simp [GetLogs]

/-- C17: after any sequence of `addLog` calls on a newly created service,
`GetLogs(0)` returns exactly the entries of the last `min n 1000` calls, oldest
first; the buffer never holds more than 1000 entries after any of the calls;
and after 1500 calls it holds the entries of the last 1000. -/
theorem logs_keep_last_1000 (dataDir : GoString) (calls : List (GoString × GoString)) :
    GetLogs (addLogs calls (NewService dataDir)) 0 =
      (calls.map (fun c => logEntry c.1 c.2)).drop (calls.length - 1000) ∧
    (GetLogs (addLogs calls (NewService dataDir)) 0).length = min calls.length 1000 ∧
    (∀ k : Nat, (addLogs (calls.take k) (NewService dataDir)).logs.length ≤ 1000) ∧
    (calls.length = 1500 →
      GetLogs (addLogs calls (NewService dataDir)) 0 =
        (calls.map (fun c => logEntry c.1 c.2)).drop 500 ∧
      (GetLogs (addLogs calls (NewService dataDir)) 0).length = 1000) := by
  have hget := (addLogs_logs dataDir calls).1
  refine ⟨by rw [GetLogs_zero, hget], ?_, ?_, ?_⟩
  · rw [GetLogs_zero, hget, List.length_drop, List.length_map]
    omega
  · intro k
    rw [(addLogs_logs dataDir (calls.take k)).1, List.length_drop, List.length_map]
    omega
  · intro h
    rw [GetLogs_zero, hget, h]
    refine ⟨rfl, ?_⟩
    rw [List.length_drop, List.length_map, h]

/-- Witness of C17: 1500 calls with the messages of a given list leave the
last 1000 entries; and three calls on a new service leave their three entries
in order. -/
theorem logs_keep_last_1000_witness :
    GetLogs (addLogs [(noon, [97]), (noon, [98]), (noon, [99])] (NewService [100])) 0 =
      [logEntry noon [97], logEntry noon [98], logEntry noon [99]] ∧
    GetLogs (addLogs ((List.range 1500).map (fun i => (noon, [Fin.ofNat i]))) (NewService [100]))
        0 =
      (((List.range 1500).map (fun i => (noon, [Fin.ofNat i]))).map
        (fun c => logEntry c.1 c.2)).drop 500 :=
  ⟨by decide,
    ((logs_keep_last_1000 [100] ((List.range 1500).map (fun i => (noon, [Fin.ofNat i])))).2.2.2
      (by simp)).1⟩

/-! ## Status aggregator: the claim -/

theorem loadWalletsStore_other_files (e : LoadEnv) (d : Disk) :
    (loadWalletsStore e d).2.2 =
      { d with walletsJson := (loadWalletsStore e d).2.2.walletsJson,
               walletJson := (loadWalletsStore e d).2.2.walletJson } := by
  unfold loadWalletsStore
  split
  · split
    · split
      · cases e.write <;> cases e.removeOk <;> rfl
      · rfl
    · rfl
  · rfl
  · rfl

theorem GetStatus_frame (e : StatusEnv) (d : Disk) (s : Service) :
    (GetStatus e d s).2 = (s, (loadWalletsStore e.load d).2.2) := rfl

/-- C18, as stated, fails: with no store file and a legacy wallet file,
`GetStatus` writes the store file and removes the legacy file. -/
theorem GetStatus_migrates :
    (GetStatus demoStatusEnv legacyDisk (NewService [100])).2.2 =
      { walletsJson := .json { Wallets := [{ carolWallet with ID := [48, 49, 48, 50] }],
                               ActiveWalletID := [48, 49, 48, 50] },
        walletJson := .missing } ∧
    (GetStatus demoStatusEnv legacyDisk (NewService [100])).2.2 ≠ legacyDisk ∧
    legacyDisk.walletsJson = .missing ∧ legacyDisk.walletJson = .json carolWallet := by
  decide

/-- C18, amended: `GetStatus` leaves the service (process handle, log buffer)
unchanged and every file other than the two wallet files as it was; the two
wallet files are as its `loadWalletsStore` call left them, which is as they
were unless the store file cannot be read and the legacy file parses to a
record with an address (then that call migrates). -/
theorem GetStatus_mutates_only_by_migration (e : StatusEnv) (d : Disk) (s : Service) :
    (GetStatus e d s).2.1 = s ∧
    (GetStatus e d s).2.2 = (loadWalletsStore e.load d).2.2 ∧
    (GetStatus e d s).2.2 =
      { d with walletsJson := (GetStatus e d s).2.2.walletsJson,
               walletJson := (GetStatus e d s).2.2.walletJson } ∧
    (legacyPending d = false → (GetStatus e d s).2.2 = d) := by
  rw [GetStatus_frame]
  exact ⟨rfl, rfl, loadWalletsStore_other_files e.load d,
    fun h => loadWalletsStore_disk e.load d h⟩

/-- Witness of the amended C18: on the two-record store `GetStatus` reports
the first record and leaves service and files alone. -/
theorem GetStatus_mutates_only_by_migration_witness :
    legacyPending twoWalletDisk = false ∧
    (GetStatus demoStatusEnv twoWalletDisk runningService).1.WalletAddress = [116, 49, 99] ∧
    (GetStatus demoStatusEnv twoWalletDisk runningService).1.IsNodeRunning = true ∧
    (GetStatus demoStatusEnv twoWalletDisk runningService).2.2 = twoWalletDisk :=
  ⟨by decide, by decide, by decide,
    (GetStatus_mutates_only_by_migration demoStatusEnv twoWalletDisk runningService).2.2.2
      (by decide)⟩

/-! ## Balance formatting: the claims -/

/-- C19: 1 500 000 micro-units display as "1.50 TKFY" and 2 000 000 000 000
micro-units as "2,000,000 TKFY". -/
theorem balanceDisplay_examples :
    balanceDisplay 1500000 = [49, 46, 53, 48, 32, 84, 75, 70, 89] ∧
    float64Div (float64OfInt 1500000) (float64OfInt 1000000) =
      { num := 6755399441055744, den := 4503599627370496 } ∧
    formatBalance { num := 6755399441055744, den := 4503599627370496 } =
      [49, 46, 53, 48, 32, 84, 75, 70, 89] ∧
    balanceDisplay 2000000000000 =
      [50, 44, 48, 48, 48, 44, 48, 48, 48, 32, 84, 75, 70, 89] := by
  decide

/-- C20, as stated, fails: 1 239 000 micro-units display as "1.24 TKFY" where
truncation gives "1.23 TKFY", and 1 001 000 micro-units display as "1 TKFY"
where truncation gives "1.00 TKFY". -/
theorem balanceDisplay_rounds :
    balanceDisplay 1239000 = [49, 46, 50, 52, 32, 84, 75, 70, 89] ∧
    truncatedDisplay 1239000 = [49, 46, 50, 51, 32, 84, 75, 70, 89] ∧
    balanceDisplay 1239000 ≠ truncatedDisplay 1239000 ∧
    balanceDisplay 1001000 = [49, 32, 84, 75, 70, 89] ∧
    truncatedDisplay 1001000 = [49, 46, 48, 48, 32, 84, 75, 70, 89] ∧
    balanceDisplay 1001000 ≠ truncatedDisplay 1001000 := by
  decide

/-! ### Lemmas: rounding -/

theorem roundHalfEven_spec (n d : Nat) (hd : 0 < d) :
    2 * (roundHalfEven n d * d) ≤ 2 * n + d ∧ 2 * n ≤ 2 * (roundHalfEven n d * d) + d := by
  have hdm := Nat.div_add_mod n d
  have hr := Nat.mod_lt n hd
  have hq : n / d * d = d * (n / d) := Nat.mul_comm _ _
  have hq1 : (n / d + 1) * d = d * (n / d) + d := by rw [Nat.add_mul, hq, Nat.one_mul]
  generalize hQ : d * (n / d) = Q at hdm hq hq1
  unfold roundHalfEven
  simp only
  split
  · rw [hq]; omega
  · split
    · rw [hq1]; omega
    · split
      · rw [hq]; omega
      · rw [hq1]; omega

theorem bitLen_le (fuel : Nat) : ∀ n j : Nat, n < 2 ^ j → bitLen fuel n ≤ j := by
  induction fuel with
  | zero => intro n j _; simp [bitLen]
  | succ fuel ih =>
    intro n j h
    unfold bitLen
    split
    · omega
    · rename_i hn
      cases j with
      | zero => simp at h; omega
      | succ j =>
        have : n / 2 < 2 ^ j := by
          rw [Nat.pow_succ] at h
          omega
        have := ih (n / 2) j this
        omega

theorem floorLog2_le (n d : Nat) : floorLog2 n d ≤ (bitLen n n : Int) - bitLen d d := by
  unfold floorLog2
  simp only
  split <;> omega

theorem float64Div_micro (a : Nat) (hpos : 0 < a) (ha : a < 10 ^ 12) :
    ∃ k : Nat, 20 ≤ k ∧
      float64Div (float64OfInt (a : Int)) (float64OfInt 1000000) =
        { num := (roundHalfEven (a * 2 ^ k) 1000000 : Nat), den := 2 ^ k } := by
  have hlen : bitLen a a ≤ 40 := bitLen_le a a 40 (by omega)
  have hden : bitLen 1000000 1000000 = 20 := by decide
  have he : floorLog2 a 1000000 ≤ 20 := by
    have := floorLog2_le a 1000000
    rw [hden] at this
    omega
  refine ⟨(52 - floorLog2 a 1000000).toNat, by omega, ?_⟩
  have h1 : float64OfInt (a : Int) = { num := (a : Int), den := 1 } := by
    have : (a : Int).natAbs < 2 ^ 53 := by
      rw [Int.natAbs_ofNat]; omega
    unfold float64OfInt
    rw [if_pos this]
  have h2 : float64OfInt 1000000 = { num := 1000000, den := 1 } := by decide
  rw [h1, h2]
  have hne : ¬ a = 0 := by omega
  have hnot : ¬ (52 : Int) ≤ floorLog2 a 1000000 := by omega
  have hsign : (a : Int).sign = 1 := Int.sign_eq_one_of_pos (by omega)
  have hs : Int.sign 1000000 = 1 := rfl
  have harg : (a : Int) * ((1 : Nat) : Int) * Int.sign 1000000 = (a : Int) := by
    rw [hs]; simp
  have hd : 1 * (1000000 : Int).natAbs = 1000000 := rfl
  unfold float64Div
  simp only
  rw [harg, hd]
  simp [roundFloat64, hne, hnot, hsign]

theorem hundredths_near (a K m r : Nat) (hK : 1000000 < K)
    (hm1 : 2 * (m * 1000000) ≤ 2 * (a * K) + 1000000)
    (hm2 : 2 * (a * K) ≤ 2 * (m * 1000000) + 1000000)
    (hr1 : 2 * (r * K) ≤ 2 * (m * 100) + K) (hr2 : 2 * (m * 100) ≤ 2 * (r * K) + K) :
    r * 10000 ≤ a + 5000 ∧ a ≤ r * 10000 + 5000 := by
  constructor
  · by_contra h
    push_neg at h
    have h1 : (a + 5001) * K ≤ r * 10000 * K := Nat.mul_le_mul_right K (by omega)
    nlinarith
  · by_contra h
    push_neg at h
    have h1 : (r * 10000 + 5001) * K ≤ a * K := Nat.mul_le_mul_right K (by omega)
    nlinarith

theorem hundredths_cases (a r : Nat) (h1 : r * 10000 ≤ a + 5000) (h2 : a ≤ r * 10000 + 5000) :
    (a % 10000 < 5000 → r = a / 10000) ∧ (5000 < a % 10000 → r = a / 10000 + 1) ∧
    (a % 10000 = 5000 → r = a / 10000 ∨ r = a / 10000 + 1) := by
  refine ⟨fun _ => ?_, fun _ => ?_, fun _ => ?_⟩ <;> omega

/-! ### Lemmas: digits and splitting -/

theorem decimalDigitsAux_digits (fuel : Nat) : ∀ (n : Nat) (acc : List Byte),
    (∀ b ∈ acc, 48 ≤ b.val ∧ b.val ≤ 57) →
    ∀ b ∈ decimalDigitsAux fuel n acc, 48 ≤ b.val ∧ b.val ≤ 57 := by
  induction fuel with
  | zero => intro n acc hacc; simpa [decimalDigitsAux] using hacc
  | succ fuel ih =>
    intro n acc hacc
    have hacc1 : ∀ b ∈ (Fin.ofNat (48 + n % 10) : Byte) :: acc, 48 ≤ b.val ∧ b.val ≤ 57 := by
      intro b hb
      rcases List.mem_cons.1 hb with rfl | hb
      · have hv : (Fin.ofNat (48 + n % 10) : Byte).val = (48 + n % 10) % 256 := rfl
        rw [hv]
        omega
      · exact hacc b hb
    unfold decimalDigitsAux
    simp only
    split
    · exact hacc1
    · exact ih _ _ hacc1

theorem decimalDigits_digits (n : Nat) : ∀ b ∈ decimalDigits n, 48 ≤ b.val ∧ b.val ≤ 57 :=
  decimalDigitsAux_digits (n + 1) n [] (by simp)

theorem fracDigits_digits (prec k : Nat) : ∀ b ∈ fracDigits prec k, 48 ≤ b.val ∧ b.val ≤ 57 := by
  induction prec with
  | zero => simp [fracDigits]
  | succ prec ih =>
    intro b hb
    unfold fracDigits at hb
    rcases List.mem_cons.1 hb with rfl | hb
    · have hv : (Fin.ofNat (48 + k / 10 ^ prec % 10) : Byte).val =
          (48 + k / 10 ^ prec % 10) % 256 := rfl
      rw [hv]
      omega
    · exact ih b hb

theorem not_mem_of_digits (sep : Byte) (xs : List Byte) (hsep : sep.val < 48)
    (h : ∀ b ∈ xs, 48 ≤ b.val ∧ b.val ≤ 57) : sep ∉ xs := by
  intro hmem
  have := (h sep hmem).1
  omega

theorem stringsSplit_not_mem (sep : Byte) (xs : GoString) (h : sep ∉ xs) :
    stringsSplit sep xs = [xs] := by
  induction xs with
  | nil => rfl
  | cons c cs ih =>
    have hc : c ≠ sep := fun hc => h (by simp [hc])
    have hcs : sep ∉ cs := fun hm => h (by simp [hm])
    simp [stringsSplit, hc, ih hcs]

theorem stringsSplit_append (sep : Byte) (xs ys : GoString) (h : sep ∉ xs) :
    stringsSplit sep (xs ++ sep :: ys) = xs :: stringsSplit sep ys := by
  induction xs with
  | nil => simp [stringsSplit]
  | cons c cs ih =>
    have hc : c ≠ sep := fun hc => h (by simp [hc])
    have hcs : sep ∉ cs := fun hm => h (by simp [hm])
    simp [stringsSplit, hc, ih hcs]

theorem fracDigits_two (k : Nat) (hk : k < 100) :
    fracDigits 2 k = [48, 48] ↔ k = 0 := by
  have h1 : (Fin.ofNat (48 + k / 10 ^ 1 % 10) : Byte) = 48 ↔ k / 10 % 10 = 0 := by
    rw [Fin.ext_iff]
    have hv : (Fin.ofNat (48 + k / 10 ^ 1 % 10) : Byte).val = (48 + k / 10 ^ 1 % 10) % 256 := rfl
    rw [hv]
    simp only [Nat.pow_one]
    have : ((48 : Byte)).val = 48 := rfl
    rw [this]
    omega
  have h0 : (Fin.ofNat (48 + k / 10 ^ 0 % 10) : Byte) = 48 ↔ k % 10 = 0 := by
    rw [Fin.ext_iff]
    have hv : (Fin.ofNat (48 + k / 10 ^ 0 % 10) : Byte).val = (48 + k / 10 ^ 0 % 10) % 256 := rfl
    rw [hv]
    simp only [Nat.pow_zero, Nat.div_one]
    have : ((48 : Byte)).val = 48 := rfl
    rw [this]
    omega
  simp only [fracDigits, List.cons.injEq, and_true, h1, h0]
  omega

theorem formatBalance_small (m K : Nat) (hlt : m < 1000000 * K) :
    formatBalance { num := (m : Int), den := K } =
      hundredthsDisplay (roundHalfEven (m * 100) K) := by
  have h2 : float64OfInt 1000000 = { num := 1000000, den := 1 } := by decide
  have hge : float64Ge { num := (m : Int), den := K } (float64OfInt 1000000) = false := by
    rw [h2]
    simp only [float64Ge, decide_eq_false_iff_not]
    push_cast
    omega
  generalize hr : roundHalfEven (m * 100) K = r
  have hfix : formatFixed 2 { num := (m : Int), den := K } =
      decimalDigits (r / 100) ++ 46 :: fracDigits 2 (r % 100) := by
    simp [formatFixed, hr]
  have hD := decimalDigits_digits (r / 100)
  have hF := fracDigits_digits 2 (r % 100)
  have hF2 := fracDigits_two (r % 100) (Nat.mod_lt r (by decide))
  unfold hundredthsDisplay
  simp only
  generalize decimalDigits (r / 100) = D at hfix hD ⊢
  generalize fracDigits 2 (r % 100) = F at hfix hF hF2 ⊢
  have hD32 : (32 : Byte) ∉ D := not_mem_of_digits 32 D (by decide) hD
  have hD46 : (46 : Byte) ∉ D := not_mem_of_digits 46 D (by decide) hD
  have hF32 : (32 : Byte) ∉ F := not_mem_of_digits 32 F (by decide) hF
  have hF46 : (46 : Byte) ∉ F := not_mem_of_digits 46 F (by decide) hF
  have hnum32 : (32 : Byte) ∉ D ++ 46 :: F := by
    simp only [List.mem_append, List.mem_cons, not_or]
    exact ⟨hD32, by decide, hF32⟩
  have hsplit32 : stringsSplit 32 (D ++ 46 :: F ++ [32] ++ strTKFY) = [D ++ 46 :: F, strTKFY] := by
    have : D ++ 46 :: F ++ [32] ++ strTKFY = (D ++ 46 :: F) ++ 32 :: strTKFY := by simp
    rw [this, stringsSplit_append 32 _ _ hnum32, stringsSplit_not_mem 32 strTKFY (by decide)]
  have hsplit46 : stringsSplit 46 (D ++ 46 :: F) = [D, F] := by
    rw [stringsSplit_append 46 _ _ hD46, stringsSplit_not_mem 46 F hF46]
  unfold formatBalance
  simp only [hge, Bool.false_eq_true, if_false, hfix, hsplit32, hsplit46, List.headD_cons]
  by_cases h0 : r % 100 = 0
  · have hF00 : F = [48, 48] := hF2.2 h0
    simp [h0, hF00]
  · have hF00 : ¬ F = [48, 48] := fun h => h0 (hF2.1 h)
    simp [h0, hF00]

/-- C20, amended: for every amount `a` of micro-units below `10¹²` the display
is that of `a / 10⁶` rounded (not truncated) to hundredths: with `r` the
integer nearest to `a / 10⁴` (either neighbour when `a / 10⁴` lies exactly
halfway), the grouped integer part of `r / 100`, then a point and the two
digits of `r mod 100` unless these are zero, then " TKFY". -/
theorem balanceDisplay_nearest_hundredth (a : Nat) (ha : a < 10 ^ 12) :
    ∃ r : Nat,
      (a % 10000 < 5000 → r = a / 10000) ∧
      (5000 < a % 10000 → r = a / 10000 + 1) ∧
      (a % 10000 = 5000 → r = a / 10000 ∨ r = a / 10000 + 1) ∧
      balanceDisplay (a : Int) = hundredthsDisplay r := by
  rcases Nat.eq_zero_or_pos a with h0 | hpos
  · subst h0
    exact ⟨0, by decide, by decide, by decide, by decide⟩
  · obtain ⟨k, hk, hdiv⟩ := float64Div_micro a hpos ha
    have hK : 1000000 < 2 ^ k :=
      lt_of_lt_of_le (by decide) (Nat.pow_le_pow_right (by decide) hk)
    obtain ⟨hm1, hm2⟩ := roundHalfEven_spec (a * 2 ^ k) 1000000 (by decide)
    obtain ⟨hr1, hr2⟩ := roundHalfEven_spec (roundHalfEven (a * 2 ^ k) 1000000 * 100) (2 ^ k)
      (by omega)
    generalize 2 ^ k = K at hdiv hK hm1 hm2 hr1 hr2
    generalize roundHalfEven (a * K) 1000000 = m at hdiv hm1 hm2 hr1 hr2
    have hlt : m < 1000000 * K := by
      have h1 : (a + 1) * K ≤ 1000000000000 * K := Nat.mul_le_mul_right K (by omega)
      nlinarith
    have hnear := hundredths_near a K m (roundHalfEven (m * 100) K) hK hm1 hm2 hr1 hr2
    obtain ⟨c1, c2, c3⟩ := hundredths_cases a _ hnear.1 hnear.2
    refine ⟨roundHalfEven (m * 100) K, c1, c2, c3, ?_⟩
    unfold balanceDisplay
    rw [hdiv]
    exact formatBalance_small m K hlt

/-- Witness of the amended C20: 1 239 000 micro-units, whose hundredths round
up to 124. -/
theorem balanceDisplay_nearest_hundredth_witness :
    balanceDisplay 1239000 = hundredthsDisplay 124 ∧
    hundredthsDisplay 124 = [49, 46, 50, 52, 32, 84, 75, 70, 89] ∧
    ∃ r : Nat,
      (1239000 % 10000 < 5000 → r = 1239000 / 10000) ∧
      (5000 < 1239000 % 10000 → r = 1239000 / 10000 + 1) ∧
      (1239000 % 10000 = 5000 → r = 1239000 / 10000 ∨ r = 1239000 / 10000 + 1) ∧
      balanceDisplay ((1239000 : Nat) : Int) = hundredthsDisplay r :=
  ⟨by decide, by decide, balanceDisplay_nearest_hundredth 1239000 (by decide)⟩

/-! ## Signing, load errors, failed launches, failed migration: the claims -/

theorem CreateWallet_walletJson (P : Primitives) (e : WalletEnv) (d : Disk)
    (name password : GoString) (h : d.walletJson = .missing) :
    (CreateWallet P e d name password).2.walletJson = .missing := by
  have hload : (loadWalletsStore e.load d).2.2.walletJson = .missing := by
    unfold loadWalletsStore
    split
    · rw [h]
      exact h
    · exact h
    · exact h
  simp only [CreateWallet, encryptData_eq]
  cases e.write <;> simp [saveWalletsStore, hload]

/-- C22 fails on the code: after a successful `CreateWallet` in an empty data
directory, `getMnemonic` with the right password fails with "carteira não
encontrada", although the active record of the store decrypts to the mnemonic;
`getMnemonic` reads the legacy file `wallet.json`, which no wallet operation
writes. -/
theorem getMnemonic_ignores_store :
    (CreateWallet toy demoEnv emptyDisk alice secret1).1 =
      .ok (generateWalletID [10, 11], deriveAddress toy demoEntropy, demoEntropy) ∧
    (CreateWallet toy demoEnv emptyDisk alice secret1).2.walletsJson =
      .json { Wallets := [newWalletData toy demoEnv alice demoEntropy secret1],
              ActiveWalletID := generateWalletID [10, 11] } ∧
    decryptData toy (newWalletData toy demoEnv alice demoEntropy secret1).EncryptedMnemonic
        secret1 (newWalletData toy demoEnv alice demoEntropy secret1).Salt = .ok demoEntropy ∧
    getMnemonic toy (CreateWallet toy demoEnv emptyDisk alice secret1).2 secret1 =
      .error .carteiraNaoEncontrada ∧
    (∀ (P : Primitives) (e : WalletEnv) (d : Disk) (name password : GoString),
      d.walletJson = .missing →
      getMnemonic P (CreateWallet P e d name password).2 password =
        .error .carteiraNaoEncontrada) := by
  refine ⟨by decide, by decide, by decide, by decide, ?_⟩
  intro P e d name password h
  simp [getMnemonic, CreateWallet_walletJson P e d name password h]

theorem loadWalletsStore_empty (e : LoadEnv) (d : Disk)
    (h : d.walletsJson = .garbage ∨ (d.walletsJson = .missing ∧ legacyPending d = false)) :
    loadWalletsStore e d = ({ Wallets := [], ActiveWalletID := [] }, none, d) := by
  rcases h with h | ⟨h, hp⟩
  · simp [loadWalletsStore, h]
  · unfold legacyPending at hp
    unfold loadWalletsStore
    rw [h] at hp ⊢
    simp only at hp ⊢
    split
    · rename_i oldWallet hold
      rw [hold] at hp
      simp only [decide_eq_false_iff_not] at hp
      rw [if_neg hp]
    · rfl

/-- C24: `loadWalletsStore` returns a nil error for every state of the files;
a store file that does not parse, and one that cannot be read when no legacy
file is to be migrated, give the empty store and leave the files alone; so
`GetWallets` never fails, and `SetActiveWallet` and `DeleteWallet` never take
their failed-load branch: each is what follows that branch. -/
theorem loadWalletsStore_never_fails (e : OpEnv) (d : Disk) :
    (loadWalletsStore e.load d).2.1 = none ∧
    (d.walletsJson = .garbage →
      loadWalletsStore e.load d = ({ Wallets := [], ActiveWalletID := [] }, none, d)) ∧
    (d.walletsJson = .missing → legacyPending d = false →
      loadWalletsStore e.load d = ({ Wallets := [], ActiveWalletID := [] }, none, d)) ∧
    GetWallets e.load d =
      (.ok ((loadWalletsStore e.load d).1.Wallets.map walletEntry,
        (loadWalletsStore e.load d).1.ActiveWalletID), (loadWalletsStore e.load d).2.2) ∧
    (∀ walletID : GoString,
      SetActiveWallet e d walletID =
        if (loadWalletsStore e.load d).1.Wallets.any (fun w => decide (w.ID = walletID)) = true
        then saveWalletsStore e.write
          { Wallets := (loadWalletsStore e.load d).1.Wallets, ActiveWalletID := walletID }
          (loadWalletsStore e.load d).2.2
        else (some .carteiraNaoEncontrada, (loadWalletsStore e.load d).2.2)) ∧
    (∀ (s : Service) (walletID : GoString),
      DeleteWallet s e d walletID =
        if isNodeRunning s = true then (some .pareONode, d)
        else if (loadWalletsStore e.load d).1.Wallets.any (fun w => decide (w.ID = walletID)) = true
        then saveWalletsStore e.write (storeAfterDelete (loadWalletsStore e.load d).1 walletID)
          (loadWalletsStore e.load d).2.2
        else (some .carteiraNaoEncontrada, (loadWalletsStore e.load d).2.2)) :=
  ⟨loadWalletsStore_err e.load d,
    fun h => loadWalletsStore_empty e.load d (Or.inl h),
    fun h hp => loadWalletsStore_empty e.load d (Or.inr ⟨h, hp⟩),
    by simp [GetWallets, loadWalletsStore_err],
    fun walletID => SetActiveWallet_eq e d walletID,
    fun s walletID => DeleteWallet_eq s e d walletID⟩

/-- An evaluation for C24: a store file that does not parse gives the empty
store, a nil error, and `GetWallets` answers with no entries. -/
theorem loadWalletsStore_never_fails_witness :
    loadWalletsStore demoLoadEnv { walletsJson := .garbage, walletJson := .json carolWallet } =
      ({ Wallets := [], ActiveWalletID := [] }, none,
       { walletsJson := .garbage, walletJson := .json carolWallet }) ∧
    (GetWallets demoLoadEnv { walletsJson := .garbage, walletJson := .missing }).1 =
      .ok ([], []) ∧
    (loadWalletsStore demoOpEnv.load legacyDisk).2.1 = none :=
  ⟨by decide, by decide, (loadWalletsStore_never_fails demoOpEnv legacyDisk).1⟩

theorem StartNode_launch_fails (e : StartEnv) (d : Disk) (s : Service)
    (hstop : isNodeRunning s = false) (hlaunch : e.launch = none) :
    (StartNode e d s).1 = some .execStart ∧ isNodeRunning (StartNode e d s).2 = false := by
  unfold StartNode
  rw [hstop]
  simp only [Bool.false_eq_true, if_false]
  cases hc : IsCosmovisorEnabled d <;> simp [startWithCosmovisor, hlaunch, isNodeRunning, execCommand]

/-- C25: when the launch fails inside `StartNode`, with either strategy,
`StartNode` returns the error of the launch and `isNodeRunning` is false
afterwards; `StopNode` then fails with "node não está rodando" and changes
nothing; and a later `StartNode` is not answered with "node já está rodando":
it fails again with a launch error or succeeds when its launch succeeds. -/
theorem StartNode_failed_launch (e : StartEnv) (d : Disk) (s : Service)
    (hstop : isNodeRunning s = false) (hlaunch : e.launch = none) :
    (StartNode e d s).1 = some .execStart ∧
    isNodeRunning (StartNode e d s).2 = false ∧
    (∀ now : GoString,
      StopNode now (StartNode e d s).2 = (some .nodeNaoRodando, (StartNode e d s).2)) ∧
    (∀ (e2 : StartEnv) (d2 : Disk),
      (StartNode e2 d2 (StartNode e d s).2).1 ≠ some .nodeJaRodando ∧
      (e2.launch = none → (StartNode e2 d2 (StartNode e d s).2).1 = some .execStart) ∧
      (∀ p, e2.launch = some p → (StartNode e2 d2 (StartNode e d s).2).1 = none ∧
        isNodeRunning (StartNode e2 d2 (StartNode e d s).2).2 = true)) := by
  obtain ⟨herr, hnot⟩ := StartNode_launch_fails e d s hstop hlaunch
  refine ⟨herr, hnot, fun now => StopNode_stopped now _ hnot, fun e2 d2 => ?_⟩
  have hnone : e2.launch = none → (StartNode e2 d2 (StartNode e d s).2).1 = some .execStart :=
    fun h => (StartNode_launch_fails e2 d2 _ hnot h).1
  have hsome : ∀ p, e2.launch = some p → (StartNode e2 d2 (StartNode e d s).2).1 = none ∧
      isNodeRunning (StartNode e2 d2 (StartNode e d s).2).2 = true :=
    fun p h => ⟨(StartNode_launch e2 d2 _ p hnot h).1, (StartNode_launch e2 d2 _ p hnot h).2.1⟩
  refine ⟨?_, hnone, hsome⟩
  cases hl : e2.launch with
  | none => rw [hnone hl]; decide
  | some p => rw [(hsome p hl).1]; decide

/-- Witness of C25: a failing direct launch and a failing cosmovisor launch on
a new service, followed by `StopNode` and by a launch that succeeds. -/
theorem StartNode_failed_launch_witness :
    (StartNode failEnv emptyDisk (NewService [100])).1 = some .execStart ∧
    (StartNode failEnv { emptyDisk with cosmovisorConfigJson := true } (NewService [100])).1 =
      some .execStart ∧
    (StopNode noon (StartNode failEnv emptyDisk (NewService [100])).2).1 =
      some .nodeNaoRodando ∧
    (StartNode (launchEnv 1) emptyDisk (StartNode failEnv emptyDisk (NewService [100])).2).1 =
      none ∧
    isNodeRunning (StartNode failEnv emptyDisk (NewService [100])).2 = false :=
  ⟨by decide, by decide, by decide, by decide,
    (StartNode_failed_launch failEnv emptyDisk (NewService [100]) (by decide) (by decide)).2.1⟩

/-- C26 fails on the code: when the write of the store file fails during the
migration, the legacy file is removed all the same; afterwards neither file
holds the wallet and the next load returns the empty store. -/
theorem migration_loses_wallet :
    legacyDisk.walletJson = .json carolWallet ∧
    (saveWalletsStore failingWriteEnv.write
      { Wallets := [{ carolWallet with ID := [48, 49, 48, 50] }],
        ActiveWalletID := [48, 49, 48, 50] } legacyDisk).1 = some .writeFile ∧
    loadWalletsStore failingWriteEnv legacyDisk =
      ({ Wallets := [{ carolWallet with ID := [48, 49, 48, 50] }],
         ActiveWalletID := [48, 49, 48, 50] }, none,
       { walletsJson := .missing, walletJson := .missing }) ∧
    loadWalletsStore demoLoadEnv (loadWalletsStore failingWriteEnv legacyDisk).2.2 =
      ({ Wallets := [], ActiveWalletID := [] }, none,
       { walletsJson := .missing, walletJson := .missing }) ∧
    (loadWalletsStore { failingWriteEnv with write := .failedTruncated } legacyDisk).2.2 =
      { walletsJson := .garbage, walletJson := .missing } := by
  decide

/-! ## Readers of the active wallet: the claim -/

theorem GetStatus_WalletAddress (e : StatusEnv) (d : Disk) (s : Service) :
    (GetStatus e d s).1.WalletAddress =
      (statusWallet (loadWalletsStore e.load d).1 zeroStatus).WalletAddress := by
  simp only [GetStatus, zeroStatus]
  repeat' split
  all_goals rfl

theorem statusWallet_found (store : WalletsStore) (w : WalletData)
    (hfind : store.Wallets.find? (fun x => decide (x.ID = store.ActiveWalletID)) = some w)
    (haddr : w.Address ≠ []) :
    (statusWallet store zeroStatus).WalletAddress = w.Address := by
  have hne : store.Wallets.length > 0 := by
    cases hws : store.Wallets with
    | nil => rw [hws] at hfind; cases hfind
    | cons a as => simp
  simp [statusWallet, hne, hfind, haddr]

theorem statusWallet_not_found (store : WalletsStore) (w0 : WalletData) (rest : List WalletData)
    (hws : store.Wallets = w0 :: rest)
    (hfind : store.Wallets.find? (fun x => decide (x.ID = store.ActiveWalletID)) = none) :
    (statusWallet store zeroStatus).WalletAddress = w0.Address := by
  unfold statusWallet
  simp only [hfind]
  simp [hws, zeroStatus]

theorem loadWalletsStore_hasAddresses (e : LoadEnv) (d : Disk)
    (hfile : ∀ st, d.walletsJson = .json st → HasAddresses st) :
    HasAddresses (loadWalletsStore e d).1 := by
  unfold loadWalletsStore
  split
  · split
    · rename_i oldWallet _
      by_cases haddr : oldWallet.Address ≠ []
      · rw [if_pos haddr]
        intro w hw
        simp only [List.mem_singleton] at hw
        rw [hw]
        exact haddr
      · rw [if_neg haddr]
        intro w hw
        cases hw
    · intro w hw
      cases hw
  · intro w hw
    cases hw
  · rename_i st hst
    exact hfile st hst

/-- The stores of the data model are the stores the service writes: a load
returns a store whose records all have an address when the store file holds
one (the migration adopts a legacy record only with an address), and every
successful `CreateWallet`, `ImportWallet`, `SetActiveWallet` and `DeleteWallet`
leaves such a store file when it loaded one, the derived address being a
bech32 text, which is not empty. -/
theorem HasAddresses_kept (P : Primitives) (hbech : ∀ m, deriveAddress P m ≠ []) :
    (∀ (e : LoadEnv) (d : Disk), (∀ st, d.walletsJson = .json st → HasAddresses st) →
      HasAddresses (loadWalletsStore e d).1) ∧
    (∀ (e : WalletEnv) (d : Disk) (name password : GoString)
        (r : GoString × GoString × GoString),
      HasAddresses (loadWalletsStore e.load d).1 →
      (CreateWallet P e d name password).1 = .ok r →
      ∃ st, (CreateWallet P e d name password).2.walletsJson = .json st ∧ HasAddresses st) ∧
    (∀ (e : WalletEnv) (d : Disk) (name mnemonic password : GoString) (r : GoString × GoString),
      HasAddresses (loadWalletsStore e.load d).1 →
      (ImportWallet P e d name mnemonic password).1 = .ok r →
      ∃ st, (ImportWallet P e d name mnemonic password).2.walletsJson = .json st ∧
        HasAddresses st) ∧
    (∀ (e : OpEnv) (d : Disk) (walletID : GoString),
      HasAddresses (loadWalletsStore e.load d).1 →
      (SetActiveWallet e d walletID).1 = none →
      ∃ st, (SetActiveWallet e d walletID).2.walletsJson = .json st ∧ HasAddresses st) ∧
    (∀ (s : Service) (e : OpEnv) (d : Disk) (walletID : GoString),
      HasAddresses (loadWalletsStore e.load d).1 →
      (DeleteWallet s e d walletID).1 = none →
      ∃ st, (DeleteWallet s e d walletID).2.walletsJson = .json st ∧ HasAddresses st) := by
  have hnew : ∀ (e : WalletEnv) (d : Disk) (name mnemonic password : GoString),
      HasAddresses (loadWalletsStore e.load d).1 →
      HasAddresses (storeWithNew P e d name mnemonic password) := by
    intro e d name mnemonic password hdata w hw
    simp only [storeWithNew, List.mem_append, List.mem_singleton] at hw
    rcases hw with hw | hw
    · exact hdata w hw
    · rw [hw]
      exact hbech mnemonic
  refine ⟨loadWalletsStore_hasAddresses, ?_, ?_, ?_, ?_⟩
  · intro e d name password r hdata hok
    obtain ⟨-, hdisk⟩ := CreateWallet_ok P e d name password r hok
    exact ⟨_, by rw [hdisk], hnew e d name _ password hdata⟩
  · intro e d name mnemonic password r hdata hok
    obtain ⟨-, hdisk⟩ := ImportWallet_ok P e d name mnemonic password r hok
    exact ⟨_, by rw [hdisk], hnew e d name mnemonic password hdata⟩
  · intro e d walletID hdata hok
    obtain ⟨hdisk, -⟩ := SetActiveWallet_ok e d walletID hok
    exact ⟨{ Wallets := (loadWalletsStore e.load d).1.Wallets, ActiveWalletID := walletID },
      by rw [hdisk], hdata⟩
  · intro s e d walletID hdata hok
    refine ⟨_, DeleteWallet_ok s e d walletID hok, ?_⟩
    intro w hw
    simp only [storeAfterDelete, List.mem_filter] at hw
    exact hdata w hw.1

theorem toy_deriveAddress_ne (m : GoString) : deriveAddress toy m ≠ [] := by
  simp [deriveAddress, toy, accountHrp]

/-- Outside the data model, on a store file edited by hand so that its active
record, not the first one, has no address, `GetStatus` takes the empty address
for "no record found" and reports the address of the first record, while
`GetWalletInfo` returns the empty address of the active record. -/
theorem GetStatus_without_address :
    ¬ HasAddresses (loadWalletsStore demoLoadEnv emptyAddressDisk).1 ∧
    (GetStatus demoStatusEnv emptyAddressDisk (NewService [100])).1.WalletAddress =
      carolWallet.Address ∧
    (GetWalletInfo demoLoadEnv emptyAddressDisk).1 = .ok ([], eveWallet.Name) := by
  decide

/-- C23: on every non-empty store of the data model (every record has an
address, as has every record the service writes), the `WalletAddress` that
`GetStatus` reports is the address `GetWalletInfo` returns, and both readers
resolve the active wallet the same way: to the first record with the active id,
and to the first record of the store when no record has the active id. -/
theorem GetStatus_GetWalletInfo_agree (e : StatusEnv) (d : Disk) (s : Service)
    (hne : (loadWalletsStore e.load d).1.Wallets ≠ [])
    (hdata : HasAddresses (loadWalletsStore e.load d).1) :
    (∃ name, (GetWalletInfo e.load d).1 = .ok ((GetStatus e d s).1.WalletAddress, name)) ∧
    (∀ (pre post : List WalletData) (w : WalletData),
      (loadWalletsStore e.load d).1.Wallets = pre ++ w :: post →
      w.ID = (loadWalletsStore e.load d).1.ActiveWalletID →
      (∀ x ∈ pre, x.ID ≠ (loadWalletsStore e.load d).1.ActiveWalletID) →
      (GetStatus e d s).1.WalletAddress = w.Address ∧
      (GetWalletInfo e.load d).1 = .ok (w.Address, w.Name)) ∧
    (∀ (w0 : WalletData) (rest : List WalletData),
      (loadWalletsStore e.load d).1.Wallets = w0 :: rest →
      (∀ x ∈ (loadWalletsStore e.load d).1.Wallets,
        x.ID ≠ (loadWalletsStore e.load d).1.ActiveWalletID) →
      (GetStatus e d s).1.WalletAddress = w0.Address ∧
      (GetWalletInfo e.load d).1 = .ok (w0.Address, w0.Name)) := by
  have hfound : ∀ w : WalletData,
      (loadWalletsStore e.load d).1.Wallets.find?
        (fun x => decide (x.ID = (loadWalletsStore e.load d).1.ActiveWalletID)) = some w →
      (GetStatus e d s).1.WalletAddress = w.Address ∧
      (GetWalletInfo e.load d).1 = .ok (w.Address, w.Name) := by
    intro w hfind
    have haddr : w.Address ≠ [] := hdata w (List.mem_of_find?_eq_some hfind)
    rw [GetStatus_WalletAddress, statusWallet_found _ w hfind haddr]
    refine ⟨rfl, ?_⟩
    cases hws : (loadWalletsStore e.load d).1.Wallets with
    | nil => exact absurd hws hne
    | cons a as =>
      simp only [GetWalletInfo, loadWalletsStore_err, hfind]
      simp [hws]
  have hnone : ∀ (w0 : WalletData) (rest : List WalletData),
      (loadWalletsStore e.load d).1.Wallets = w0 :: rest →
      (loadWalletsStore e.load d).1.Wallets.find?
        (fun x => decide (x.ID = (loadWalletsStore e.load d).1.ActiveWalletID)) = none →
      (GetStatus e d s).1.WalletAddress = w0.Address ∧
      (GetWalletInfo e.load d).1 = .ok (w0.Address, w0.Name) := by
    intro w0 rest hws hfind
    rw [GetStatus_WalletAddress, statusWallet_not_found _ w0 rest hws hfind]
    refine ⟨rfl, ?_⟩
    simp only [GetWalletInfo, loadWalletsStore_err, hfind]
    simp [hws]
  refine ⟨?_, ?_, ?_⟩
  · cases hws : (loadWalletsStore e.load d).1.Wallets with
    | nil => exact absurd hws hne
    | cons w0 rest =>
      cases hfind : (loadWalletsStore e.load d).1.Wallets.find?
          (fun x => decide (x.ID = (loadWalletsStore e.load d).1.ActiveWalletID)) with
      | none =>
        obtain ⟨h1, h2⟩ := hnone w0 rest hws hfind
        exact ⟨w0.Name, by rw [h1, h2]⟩
      | some w =>
        obtain ⟨h1, h2⟩ := hfound w hfind
        exact ⟨w.Name, by rw [h1, h2]⟩
  · intro pre post w hws hw hpre
    apply hfound w
    rw [hws]
    exact find_first _ pre post w hw hpre
  · intro w0 rest hws hall
    exact hnone w0 rest hws (find_none _ _ hall)

/-- Witness of C23: on the two-record store whose first record is active, and
on the store whose active id names no record, both readers give the address of
"carol"; with the second record active both give the address of "dave". -/
theorem GetStatus_GetWalletInfo_agree_witness :
    (loadWalletsStore demoStatusEnv.load twoWalletDisk).1.Wallets ≠ [] ∧
    HasAddresses (loadWalletsStore demoStatusEnv.load twoWalletDisk).1 ∧
    (GetStatus demoStatusEnv twoWalletDisk (NewService [100])).1.WalletAddress =
      carolWallet.Address ∧
    (GetStatus demoStatusEnv staleActiveDisk (NewService [100])).1.WalletAddress =
      carolWallet.Address ∧
    (GetWalletInfo demoLoadEnv staleActiveDisk).1 = .ok (carolWallet.Address, carolWallet.Name) ∧
    (GetStatus demoStatusEnv
      { walletsJson := .json { Wallets := [carolWallet, daveWallet], ActiveWalletID := [100, 50] },
        walletJson := .missing } (NewService [100])).1.WalletAddress = daveWallet.Address ∧
    ∃ name, (GetWalletInfo demoStatusEnv.load twoWalletDisk).1 =
      .ok ((GetStatus demoStatusEnv twoWalletDisk (NewService [100])).1.WalletAddress, name) :=
  ⟨by decide, by decide, by decide, by decide, by decide, by decide,
    (GetStatus_GetWalletInfo_agree demoStatusEnv twoWalletDisk (NewService [100]) (by decide)
      (by decide)).1⟩

/-! ## Grouping: lemmas -/

theorem commaLoop_acc (len : Nat) : ∀ (cs : GoString) (i : Nat) (acc : GoString),
    commaLoop len i cs acc = acc ++ commaLoop len i cs [] := by
  intro cs
  induction cs with
  | nil => intro i acc; simp [commaLoop]
  | cons c cs ih =>
    intro i acc
    simp only [commaLoop]
    rw [ih (i + 1) ((if 0 < i ∧ (len - i) % 3 = 0 then acc ++ [44] else acc) ++ [c]),
      ih (i + 1) ((if 0 < i ∧ (len - i) % 3 = 0 then [] ++ [44] else []) ++ [c])]
    split <;> simp

theorem commaLoop_eq_commaTail (len : Nat) : ∀ (cs : GoString) (i : Nat),
    len = i + cs.length → commaLoop len i cs [] = commaTail (decide (i = 0)) cs := by
  intro cs
  induction cs with
  | nil => intro i _; rfl
  | cons c cs ih =>
    intro i hlen
    simp only [List.length_cons] at hlen
    simp only [commaLoop, commaTail]
    rw [commaLoop_acc, ih (i + 1) (by omega)]
    have hsub : len - i = cs.length + 1 := by omega
    have hi : decide (i + 1 = 0) = false := by simp
    rw [hsub, hi]
    by_cases h0 : i = 0
    · simp [h0]
    · have hpos : 0 < i := Nat.pos_of_ne_zero h0
      simp [h0, hpos]

theorem commaTail_chunks : ∀ (n : Nat) (xs : List Byte), xs.length = 3 * n →
    commaTail false xs = (chunks3 xs).flatMap (fun g => 44 :: g) ∧
    (chunks3 xs).flatten = xs ∧ (∀ g ∈ chunks3 xs, g.length = 3) := by
  intro n
  induction n with
  | zero =>
    intro xs h
    have : xs = [] := List.length_eq_zero.1 (by omega)
    subst this
    simp [commaTail, chunks3]
  | succ n ih =>
    intro xs h
    match xs, h with
    | a :: b :: c :: rest, h =>
      simp only [List.length_cons] at h
      have hrest : rest.length = 3 * n := by omega
      obtain ⟨h1, h2, h3⟩ := ih rest hrest
      have hm0 : (rest.length + 1 + 1 + 1) % 3 = 0 := by omega
      have hm1 : ¬ (rest.length + 1 + 1) % 3 = 0 := by omega
      have hm2 : ¬ (rest.length + 1) % 3 = 0 := by omega
      refine ⟨?_, ?_, ?_⟩
      · simp [commaTail, chunks3, hm0, hm1, hm2, h1]
      · simp [chunks3, h2]
      · intro g hg
        simp only [chunks3, List.mem_cons] at hg
        rcases hg with rfl | hg
        · rfl
        · exact h3 g hg
    | [], h => simp at h
    | [_], h => simp at h; omega
    | [_, _], h => simp at h; omega

theorem joinWithCommas_cons (g : List Byte) (gs : List (List Byte)) :
    joinWithCommas (g :: gs) = g ++ gs.flatMap (fun h => 44 :: h) := by
  induction gs generalizing g with
  | nil => simp [joinWithCommas]
  | cons h gs ih => simp [joinWithCommas, ih h]

theorem commaTail_groups (ds : List Byte) (hne : ds ≠ []) :
    commaTail true ds = joinWithCommas (groupsOf ds) ∧
    (groupsOf ds).flatten = ds ∧
    ∃ g gs, groupsOf ds = g :: gs ∧ 1 ≤ g.length ∧ g.length ≤ 3 ∧ ∀ h ∈ gs, h.length = 3 := by
  have hmod : ds.length % 3 = 1 ∨ ds.length % 3 = 2 ∨ ds.length % 3 = 0 := by omega
  match ds, hne with
  | a :: rest1, _ =>
    rcases hmod with hm | hm | hm
    · -- one digit in the first group
      simp only [List.length_cons] at hm
      have hr : (rest1.length + 1 + 2) % 3 + 1 = 1 := by omega
      obtain ⟨n, hn⟩ : ∃ n, rest1.length = 3 * n := ⟨rest1.length / 3, by omega⟩
      obtain ⟨h1, h2, h3⟩ := commaTail_chunks n rest1 hn
      refine ⟨?_, ?_, [a], chunks3 rest1, ?_, by simp, by simp, h3⟩
      · simp [groupsOf, hr, joinWithCommas_cons, commaTail, h1]
      · simp [groupsOf, hr, h2]
      · simp [groupsOf, hr]
    · -- two digits in the first group
      match rest1, hm with
      | b :: rest2, hm =>
        simp only [List.length_cons] at hm
        have hr : (rest2.length + 1 + 1 + 2) % 3 + 1 = 2 := by omega
        obtain ⟨n, hn⟩ : ∃ n, rest2.length = 3 * n := ⟨rest2.length / 3, by omega⟩
        obtain ⟨h1, h2, h3⟩ := commaTail_chunks n rest2 hn
        have hm1 : ¬ (rest2.length + 1) % 3 = 0 := by omega
        refine ⟨?_, ?_, [a, b], chunks3 rest2, ?_, by simp, by simp, h3⟩
        · simp [groupsOf, hr, joinWithCommas_cons, commaTail, h1, hm1]
        · simp [groupsOf, hr, h2]
        · simp [groupsOf, hr]
      | [], hm => simp at hm
    · -- three digits in the first group
      match rest1, hm with
      | b :: c :: rest3, hm =>
        simp only [List.length_cons] at hm
        have hr : (rest3.length + 1 + 1 + 1 + 2) % 3 + 1 = 3 := by omega
        obtain ⟨n, hn⟩ : ∃ n, rest3.length = 3 * n := ⟨rest3.length / 3, by omega⟩
        obtain ⟨h1, h2, h3⟩ := commaTail_chunks n rest3 hn
        have hm1 : ¬ (rest3.length + 1) % 3 = 0 := by omega
        have hm2 : ¬ (rest3.length + 1 + 1) % 3 = 0 := by omega
        refine ⟨?_, ?_, [a, b, c], chunks3 rest3, ?_, by simp, by simp, h3⟩
        · simp [groupsOf, hr, joinWithCommas_cons, commaTail, h1, hm1, hm2]
        · simp [groupsOf, hr, h2]
        · simp [groupsOf, hr]
      | [], hm => simp at hm
      | [_], hm => simp at hm

theorem commaLoop_groups (ds : List Byte) (hne : ds ≠ []) :
    commaLoop ds.length 0 ds [] = joinWithCommas (groupsOf ds) := by
  rw [commaLoop_eq_commaTail ds.length ds 0 (by omega)]
  exact (commaTail_groups ds hne).1

theorem decimalDigitsAux_ne_nil (fuel : Nat) : ∀ (n : Nat) (acc : List Byte), acc ≠ [] →
    decimalDigitsAux fuel n acc ≠ [] := by
  induction fuel with
  | zero => intro n acc h; simpa [decimalDigitsAux] using h
  | succ fuel ih =>
    intro n acc _
    unfold decimalDigitsAux
    simp only
    split
    · simp
    · exact ih _ _ (by simp)

theorem decimalDigits_ne_nil (n : Nat) : decimalDigits n ≠ [] := by
  unfold decimalDigits decimalDigitsAux
  simp only
  split
  · simp
  · exact decimalDigitsAux_ne_nil _ _ _ (by simp)

theorem fracDigits_length (prec k : Nat) : (fracDigits prec k).length = prec := by
  induction prec with
  | zero => rfl
  | succ prec ih => simp [fracDigits, ih]

theorem filter_flatMap_comma (gs : List (List Byte)) :
    (gs.flatMap (fun h => 44 :: h)).filter (fun b => decide (b ≠ 44)) =
      gs.flatten.filter (fun b => decide (b ≠ 44)) := by
  induction gs with
  | nil => rfl
  | cons g gs ih =>
    simp only [List.flatMap_cons, List.flatten_cons, List.filter_append, ih]
    simp

theorem joinWithCommas_filter (g : List Byte) (gs : List (List Byte))
    (hdigits : ∀ b ∈ (g :: gs).flatten, 48 ≤ b.val ∧ b.val ≤ 57) :
    (joinWithCommas (g :: gs)).filter (fun b => decide (b ≠ 44)) = (g :: gs).flatten := by
  rw [joinWithCommas_cons, List.filter_append, filter_flatMap_comma, ← List.filter_append]
  have : g ++ gs.flatten = (g :: gs).flatten := by simp
  rw [this, List.filter_eq_self]
  intro b hb
  have := (hdigits b hb).1
  simp only [ne_eq, decide_not, Bool.not_eq_true', decide_eq_false_iff_not]
  intro h44
  rw [h44] at this
  exact absurd this (by decide)

theorem formatBalance_large (m K : Nat) (hge : 1000000 * K ≤ m) :
    formatBalance { num := (m : Int), den := K } =
      commaLoop (decimalDigits (roundHalfEven m K)).length 0 (decimalDigits (roundHalfEven m K))
        [] ++ [32] ++ strTKFY := by
  have h2 : float64OfInt 1000000 = { num := 1000000, den := 1 } := by decide
  have hge2 : float64Ge { num := (m : Int), den := K } (float64OfInt 1000000) = true := by
    rw [h2]
    simp only [float64Ge, decide_eq_true_eq]
    push_cast
    omega
  have hfix : formatFixed 0 { num := (m : Int), den := K } = decimalDigits (roundHalfEven m K) := by
    simp [formatFixed]
  have hD := decimalDigits_digits (roundHalfEven m K)
  generalize decimalDigits (roundHalfEven m K) = D at hfix hD ⊢
  have hD32 : (32 : Byte) ∉ D := not_mem_of_digits 32 D (by decide) hD
  have hD46 : (46 : Byte) ∉ D := not_mem_of_digits 46 D (by decide) hD
  have hsplit32 : stringsSplit 32 (D ++ [32] ++ strTKFY) = [D, strTKFY] := by
    have : D ++ [32] ++ strTKFY = D ++ 32 :: strTKFY := by simp
    rw [this, stringsSplit_append 32 _ _ hD32, stringsSplit_not_mem 32 strTKFY (by decide)]
  have hsplit46 : stringsSplit 46 D = [D] := stringsSplit_not_mem 46 D hD46
  unfold formatBalance
  simp only [hge2, if_true, hfix, hsplit32, hsplit46, List.headD_cons]

/-! ## Grouping: the claim -/

/-- C21: for every non-negative balance the display of `formatBalance` is the
decimal digits of the integer part of the formatted number, cut into groups,
the first of one to three digits and every other of three, written with a comma
between two groups (so no comma comes first), followed by the rest of the text;
taking the commas out gives the digits back; and for a balance of at least
1 000 000 the rest is " TKFY" alone: no decimal part. -/
theorem formatBalance_grouped (x : Float64) (hnum : 0 ≤ x.num) :
    ∃ (digits rest g : GoString) (gs : List GoString),
      formatBalance x = joinWithCommas (g :: gs) ++ rest ∧
      (∀ b ∈ digits, 48 ≤ b.val ∧ b.val ≤ 57) ∧
      (g :: gs).flatten = digits ∧
      1 ≤ g.length ∧ g.length ≤ 3 ∧ (∀ h ∈ gs, h.length = 3) ∧
      (joinWithCommas (g :: gs)).filter (fun b => decide (b ≠ 44)) = digits ∧
      (rest = [32] ++ strTKFY ∨
        ∃ frac : GoString, frac.length = 2 ∧ (∀ b ∈ frac, 48 ≤ b.val ∧ b.val ≤ 57) ∧
          rest = [46] ++ frac ++ [32] ++ strTKFY) ∧
      (float64Ge x (float64OfInt 1000000) = true →
        digits = decimalDigits (roundHalfEven x.num.natAbs x.den) ∧ rest = [32] ++ strTKFY) ∧
      (float64Ge x (float64OfInt 1000000) = false →
        digits = decimalDigits (roundHalfEven (x.num.natAbs * 100) x.den / 100)) := by
  obtain ⟨num, den⟩ := x
  obtain ⟨m, rfl⟩ := Int.eq_ofNat_of_zero_le hnum
  have h2 : float64OfInt 1000000 = { num := 1000000, den := 1 } := by decide
  have hgeiff : float64Ge { num := (m : Int), den := den } (float64OfInt 1000000) = true ↔
      1000000 * den ≤ m := by
    rw [h2]
    simp only [float64Ge, decide_eq_true_eq]
    push_cast
    omega
  simp only [Int.natAbs_ofNat]
  by_cases hge : 1000000 * den ≤ m
  · have hD := decimalDigits_digits (roundHalfEven m den)
    obtain ⟨hjoin, hflat, g, gs, hgroups, hg1, hg3, hgs⟩ :=
      commaTail_groups _ (decimalDigits_ne_nil (roundHalfEven m den))
    refine ⟨decimalDigits (roundHalfEven m den), [32] ++ strTKFY, g, gs, ?_, hD, ?_, hg1, hg3,
      hgs, ?_, Or.inl rfl, fun _ => ⟨rfl, rfl⟩, fun h => ?_⟩
    · rw [formatBalance_large m den hge, commaLoop_groups _ (decimalDigits_ne_nil _), hgroups]
      simp
    · rw [← hgroups]; exact hflat
    · have hfl : (g :: gs).flatten = decimalDigits (roundHalfEven m den) := by
        rw [← hgroups]; exact hflat
      rw [joinWithCommas_filter g gs (by rw [hfl]; exact hD), hfl]
    · rw [hgeiff.2 hge] at h; cases h
  · have hlt : m < 1000000 * den := by omega
    have hD := decimalDigits_digits (roundHalfEven (m * 100) den / 100)
    obtain ⟨hjoin, hflat, g, gs, hgroups, hg1, hg3, hgs⟩ :=
      commaTail_groups _ (decimalDigits_ne_nil (roundHalfEven (m * 100) den / 100))
    have hfl : (g :: gs).flatten = decimalDigits (roundHalfEven (m * 100) den / 100) := by
      rw [← hgroups]; exact hflat
    refine ⟨decimalDigits (roundHalfEven (m * 100) den / 100),
      (if roundHalfEven (m * 100) den % 100 = 0 then []
        else [46] ++ fracDigits 2 (roundHalfEven (m * 100) den % 100)) ++ [32] ++ strTKFY,
      g, gs, ?_, hD, hfl, hg1, hg3, hgs, ?_, ?_, fun h => ?_, fun _ => rfl⟩
    · rw [formatBalance_small m den hlt]
      unfold hundredthsDisplay
      simp only
      rw [commaLoop_groups _ (decimalDigits_ne_nil _), hgroups]
      simp only [List.append_assoc]
    · rw [joinWithCommas_filter g gs (by rw [hfl]; exact hD), hfl]
    · by_cases h0 : roundHalfEven (m * 100) den % 100 = 0
      · left; simp [h0]
      · right
        exact ⟨fracDigits 2 (roundHalfEven (m * 100) den % 100), fracDigits_length 2 _,
          fracDigits_digits 2 _, by simp [h0]⟩
    · exact absurd (hgeiff.1 h) hge

/-- Witness of C21: the balance 1234567.5 (the fraction 2469135 / 2), displayed
as "1,234,568 TKFY". -/
theorem formatBalance_grouped_witness :
    formatBalance { num := 2469135, den := 2 } =
      [49, 44, 50, 51, 52, 44, 53, 54, 56, 32, 84, 75, 70, 89] ∧
    formatBalance { num := 12345678, den := 1000 } =
      [49, 50, 44, 51, 52, 53, 46, 54, 56, 32, 84, 75, 70, 89] ∧
    ∃ (digits rest g : GoString) (gs : List GoString),
      formatBalance { num := 2469135, den := 2 } = joinWithCommas (g :: gs) ++ rest ∧
      (∀ b ∈ digits, 48 ≤ b.val ∧ b.val ≤ 57) ∧
      (g :: gs).flatten = digits ∧
      1 ≤ g.length ∧ g.length ≤ 3 ∧ (∀ h ∈ gs, h.length = 3) ∧
      (joinWithCommas (g :: gs)).filter (fun b => decide (b ≠ 44)) = digits ∧
      (rest = [32] ++ strTKFY ∨
        ∃ frac : GoString, frac.length = 2 ∧ (∀ b ∈ frac, 48 ≤ b.val ∧ b.val ≤ 57) ∧
          rest = [46] ++ frac ++ [32] ++ strTKFY) ∧
      (float64Ge { num := 2469135, den := 2 } (float64OfInt 1000000) = true →
        digits = decimalDigits
          (roundHalfEven (Float64.mk 2469135 2).num.natAbs (Float64.mk 2469135 2).den) ∧
        rest = [32] ++ strTKFY) ∧
      (float64Ge { num := 2469135, den := 2 } (float64OfInt 1000000) = false →
        digits = decimalDigits
          (roundHalfEven ((Float64.mk 2469135 2).num.natAbs * 100) (Float64.mk 2469135 2).den /
            100)) :=
  ⟨by decide, by decide, formatBalance_grouped { num := 2469135, den := 2 } (by decide)⟩

end Tickfy
